import Mathlib

/-!
Shallow embedding of `roommesh.py` (RoomMeshImportExport): a binary codec for
the RoomMesh file format.  Byte streams are lists of `Fin 256`.  Python floats
that travel through the 32-bit wire format are modelled by their IEEE-754
binary32 bit pattern (four bytes, little endian); `struct.unpack` followed by
`struct.pack` is the identity on these patterns.  Python `int` values are
modelled by `ℤ` (or `ℕ` where the source only ever stores unsigned reads).
Mutating methods are modelled as functions from the prior state and the input
stream to `Except` of the new state and the remaining stream; a raised Python
exception is an `Except.error` carrying a constructor named after the Python
exception class plus the context label from the call site.
-/

namespace RM

abbrev Byte := Fin 256

abbrev ByteStr := List Byte

/-- Truncate a natural number to a byte, as the low 8 bits. -/
def byteOfNat (n : Nat) : Byte := ⟨n % 256, Nat.mod_lt _ (by norm_num)⟩

/-- Errors: one constructor per Python exception class raised in the source. -/
inductive Err where
  | eofError (context : String)
  | structError (context : String)
  | overflowError (context : String)
  | valueError (context : String)
  | typeError (context : String)
  | unicodeError (context : String)
  | osError (context : String)
  deriving DecidableEq, Repr

/-- ASCII codes of a Lean string literal, for embedding the source's literals. -/
def codes (s : String) : List Nat := s.data.map Char.toNat

instance exceptDecEq {ε α : Type} [DecidableEq ε] [DecidableEq α] :
    DecidableEq (Except ε α) := fun x y =>
  match x, y with
  | .ok a, .ok b =>
      if h : a = b then .isTrue (by rw [h]) else .isFalse (by simp [h])
  | .error a, .error b =>
      if h : a = b then .isTrue (by rw [h]) else .isFalse (by simp [h])
  | .ok _, .error _ => .isFalse (by simp)
  | .error _, .ok _ => .isFalse (by simp)

/-! ### Primitive codec (`read_byte` .. `write_string` in the source) -/

/-- `read_byte`: one byte, `EOFError` on exhaustion. -/
def read_byte (context : String) : ByteStr → Except Err (Nat × ByteStr)
  | [] => .error (.eofError context)
  | b :: rest => .ok (b.val, rest)

/-- `read_integer`: 4 bytes, unsigned little-endian 32-bit. -/
def read_integer (context : String) : ByteStr → Except Err (Nat × ByteStr)
  | b0 :: b1 :: b2 :: b3 :: rest =>
      .ok (b0.val + 256 * b1.val + 65536 * b2.val + 16777216 * b3.val, rest)
  | _ => .error (.eofError context)

/-- The 4-byte little-endian encoding of a value below `2 ^ 32`. -/
def u32Bytes (v : Nat) : ByteStr :=
  [byteOfNat v, byteOfNat (v / 256), byteOfNat (v / 65536), byteOfNat (v / 16777216)]

/-- An IEEE-754 binary32 bit pattern: the four wire bytes, little endian. -/
structure F32 where
  b0 : Byte
  b1 : Byte
  b2 : Byte
  b3 : Byte
  deriving DecidableEq, Repr

/-- The bit pattern of the Python float `0.0`. -/
def F32.zero : F32 := ⟨0, 0, 0, 0⟩

/-- The bit pattern of the Python float `1.0` (`0x3F800000`). -/
def F32.one : F32 := ⟨0, 0, 128, 63⟩

/-- The four wire bytes of a binary32 pattern, little endian. -/
def F32.bytes (f : F32) : ByteStr := [f.b0, f.b1, f.b2, f.b3]

/-- `read_float`: 4 bytes, little-endian binary32 (kept as its bit pattern). -/
def read_float (context : String) : ByteStr → Except Err (F32 × ByteStr)
  | b0 :: b1 :: b2 :: b3 :: rest => .ok (⟨b0, b1, b2, b3⟩, rest)
  | _ => .error (.eofError context)

/-- `read_string`: a u32 length prefix, then that many bytes decoded as ASCII
(`UnicodeDecodeError` when a byte is not 7-bit). -/
def read_string (context : String) (s : ByteStr) : Except Err (List Nat × ByteStr) := do
  let (n, s1) ← read_integer context s
  if n ≤ s1.length then
    let chunk := s1.take n
    if chunk.all (fun b => b.val < 128) then
      .ok (chunk.map Fin.val, s1.drop n)
    else
      .error (.unicodeError context)
  else
    .error (.eofError context)

/-- `write_byte`: `struct.pack` with format `B` rejects values outside 0..255. -/
def write_byte (value : ℤ) (context : String) : Except Err ByteStr :=
  if h : 0 ≤ value ∧ value < 256 then
    .ok [⟨value.toNat, by omega⟩]
  else
    .error (.structError context)

/-- `write_integer`: `int.to_bytes(4, little, unsigned)` raises `OverflowError`
outside 0..2^32-1.  All call sites in the source pass non-negative counts. -/
def write_integer (value : Nat) (context : String) : Except Err ByteStr :=
  if value < 4294967296 then
    .ok (u32Bytes value)
  else
    .error (.overflowError context)

/-- `write_float`: `struct.pack('<f', x)` re-emits the stored bit pattern. -/
def write_float (value : F32) (_context : String) : Except Err ByteStr :=
  .ok value.bytes

/-- `write_string`: u32 length prefix, then the ASCII-encoded bytes
(`UnicodeEncodeError` when a character is not 7-bit). -/
def write_string (string : List Nat) (context : String) : Except Err ByteStr := do
  let lenBytes ← write_integer string.length context
  if string.all (fun c => c < 128) then
    .ok (lenBytes ++ string.map byteOfNat)
  else
    .error (.unicodeError context)

/-- The wire form of a length-prefixed string whose codes are `s`. -/
def strEnc (s : List Nat) : ByteStr := u32Bytes s.length ++ s.map byteOfNat

/-! ### Python text-number helpers: `str.split()`, `int()`, `round()`, f-strings -/

/-- ASCII whitespace recognized by Python `str.split()` on decoded `str` input
(the only 7-bit characters with `Py_UNICODE_ISSPACE`): tab through carriage
return (9–13), the file/group/record/unit separators `\x1C`–`\x1F` (28–31),
and space (32). -/
def isSpaceCode (c : Nat) : Bool :=
  decide (c = 32 ∨ c = 9 ∨ c = 10 ∨ c = 11 ∨ c = 12 ∨ c = 13 ∨
    c = 28 ∨ c = 29 ∨ c = 30 ∨ c = 31)

/-- ASCII decimal digit. -/
def isDigitCode (c : Nat) : Bool := decide (48 ≤ c ∧ c ≤ 57)

/-- Worker for `pySplit`: `cur` holds the current token reversed. -/
def splitWsGo : List Nat → List Nat → List (List Nat)
  | cur, [] => if cur = [] then [] else [cur.reverse]
  | cur, c :: rest =>
      if isSpaceCode c then
        if cur = [] then splitWsGo [] rest else cur.reverse :: splitWsGo [] rest
      else splitWsGo (c :: cur) rest

/-- Python `str.split()` with no arguments: split on whitespace runs,
dropping leading/trailing whitespace and empty tokens. -/
def pySplit (s : List Nat) : List (List Nat) := splitWsGo [] s

/-- Digit/underscore tail of a Python integer literal (`int()` allows single
underscores between digits). -/
def pyIntGo : Nat → List Nat → Option Nat
  | acc, [] => some acc
  | acc, c :: rest =>
      if isDigitCode c then pyIntGo (10 * acc + (c - 48)) rest
      else if c = 95 then
        match rest with
        | [] => none
        | d :: rest2 =>
            if isDigitCode d then pyIntGo (10 * acc + (d - 48)) rest2 else none
      else none

/-- An unsigned run of digits (with embedded underscores), per Python `int()`. -/
def pyIntDigits : List Nat → Option Nat
  | [] => none
  | c :: rest => if isDigitCode c then pyIntGo (c - 48) rest else none

/-- Python `int(token)` for a whitespace-free ASCII token: optional sign, then
digits with optional single underscores between them. -/
def pyInt (t : List Nat) : Option ℤ :=
  match t with
  | [] => none
  | c :: rest =>
      if c = 43 then (pyIntDigits rest).map Int.ofNat
      else if c = 45 then (pyIntDigits rest).map (fun n => -(n : ℤ))
      else (pyIntDigits (c :: rest)).map Int.ofNat

/-- Decimal digits of a natural number, most significant first (fuelled to keep
the definition structurally recursive). -/
def natDigitsF : Nat → Nat → List Nat
  | 0, _ => []
  | fuel + 1, n =>
      if n < 10 then [48 + n] else natDigitsF fuel (n / 10) ++ [48 + n % 10]

/-- Decimal ASCII digits of a natural number. -/
def natDigits (n : Nat) : List Nat := natDigitsF (n + 1) n

/-- ASCII codes of Python `str(z)` / an f-string interpolation of an int. -/
def fmtInt (z : ℤ) : List Nat :=
  if z < 0 then 45 :: natDigits z.natAbs else natDigits z.toNat

/-- Python `round` on the exact value `n / 2 ^ k` of a float: the nearest
integer, ties going to the even neighbour. `Int.fdiv` is floor division, so
`f` is the floor and `r / 2 ^ k` the fractional part. -/
def pyRound (n : ℤ) (k : ℕ) : ℤ :=
  let d : ℤ := 2 ^ k
  let f := Int.fdiv n d
  let r := n - f * d
  if 2 * r < d then f
  else if d < 2 * r then f + 1
  else if f % 2 = 0 then f else f + 1

/-! ### Binary32 patterns as numbers -/

/-- The 32-bit word of a binary32 pattern. -/
def F32.bits (f : F32) : Nat :=
  f.b0.val + 256 * f.b1.val + 65536 * f.b2.val + 16777216 * f.b3.val

/-- Biased exponent field. -/
def F32.exponent (f : F32) : Nat := f.bits / 8388608 % 256

/-- Mantissa field. -/
def F32.mantissa (f : F32) : Nat := f.bits % 8388608

/-- A pattern is finite when its exponent field is not all ones. -/
def F32.isFinite (f : F32) : Bool := decide (f.exponent ≠ 255)

/-- The exact value of a finite binary32 pattern, as a dyadic pair `(n, k)`
standing for `n / 2 ^ k` (`none` for ±inf/NaN).  Normal patterns are
`±(2^23 + mantissa) * 2^(exponent - 150)`, subnormal ones
`±mantissa * 2^(-149)`. -/
def f32ToDyadic (f : F32) : Option (ℤ × ℕ) :=
  if f.exponent = 255 then none
  else
    let m : ℕ := if f.exponent = 0 then f.mantissa else 8388608 + f.mantissa
    let e : ℕ := if f.exponent = 0 then 1 else f.exponent
    let n : ℤ := if f.bits / 2147483648 = 1 then -(m : ℤ) else (m : ℤ)
    if 150 ≤ e then some (n * 2 ^ (e - 150), 0) else some (n, 150 - e)

/-- A Python number as stored in an `Angle`: an `int` (after a text parse) or a
float (bit pattern, after a binary parse or from the 0.0 default). -/
inductive PyNum where
  | pint (z : ℤ)
  | pfloat (f : F32)
  deriving DecidableEq, Repr

/-- Is this number a Python `int`? -/
def PyNum.isInt : PyNum → Bool
  | .pint _ => true
  | .pfloat _ => false

/-- Python `round(x)` on an angle field: ints round to themselves; floats round
their exact rational value half-to-even; inf/NaN raise. -/
def pyRoundNum : PyNum → Except Err ℤ
  | .pint z => .ok z
  | .pfloat f =>
      match f32ToDyadic f with
      | some (n, k) => .ok (pyRound n k)
      | none =>
          if f.mantissa = 0 then .error (.overflowError "cannot convert float infinity to integer")
          else .error (.valueError "cannot convert float NaN to integer")

/-- Bit length of a natural number (fuelled). -/
def bitLenF : Nat → Nat → Nat
  | 0, _ => 0
  | fuel + 1, n => if n = 0 then 0 else bitLenF fuel (n / 2) + 1

/-- Bit length. -/
def bitLen (n : Nat) : Nat := bitLenF (n + 1) n

/-- Assemble a pattern from its 32-bit word. -/
def f32OfBits (bits : Nat) : F32 :=
  ⟨byteOfNat bits, byteOfNat (bits / 256), byteOfNat (bits / 65536), byteOfNat (bits / 16777216)⟩

/-- `struct.pack('<f', float(z))` for a Python int `z`: correctly rounded
(ties to even) conversion to binary32, overflowing to ±inf.  Only reachable
through `Angle.write_as_bytes` on an int-valued field, which no code path in
the repository exercises. -/
def intToF32 (z : ℤ) : F32 :=
  let n := z.natAbs
  let sgn : Nat := if z < 0 then 2147483648 else 0
  if n = 0 then F32.zero
  else
    let e := bitLen n - 1
    if e ≤ 23 then f32OfBits (sgn + (e + 127) * 8388608 + (n * 2 ^ (23 - e) - 8388608))
    else
      let sh := e - 23
      let q := n / 2 ^ sh
      let r := n % 2 ^ sh
      let q1 := if 2 ^ (sh - 1) < r ∨ (r = 2 ^ (sh - 1) ∧ q % 2 = 1) then q + 1 else q
      let m := if q1 = 16777216 then 8388608 else q1
      let e1 := if q1 = 16777216 then e + 1 else e
      if 255 ≤ e1 + 127 then f32OfBits (sgn + 255 * 8388608)
      else f32OfBits (sgn + (e1 + 127) * 8388608 + (m - 8388608))

/-- The float stored in a `PyNum` slot, as `struct.pack('<f', x)` would see it. -/
def numToF32 : PyNum → F32
  | .pfloat f => f
  | .pint z => intToF32 z

/-! ### Geometric value types -/

/-- `Texture`: one of the two texture slots of a render object. -/
structure Texture where
  layer_ID : Nat
  filename : List Nat
  deriving DecidableEq, Repr

/-- `Texture()` with the source's defaults (`layer_ID = 1`, `filename = ''`). -/
def Texture.init : Texture := ⟨1, []⟩

/-- `Texture.parse`: both fields are assigned on every path, so the prior state
is irrelevant. -/
def Texture.parse (s : ByteStr) : Except Err (Texture × ByteStr) := do
  let (layer, s1) ← read_byte "texture layer ID" s
  if layer = 0 then
    .ok (⟨layer, []⟩, s1)
  else do
    let (fn, s2) ← read_string "texture_filename" s1
    .ok (⟨layer, fn⟩, s2)

/-- `Texture.write`. -/
def Texture.write (t : Texture) : Except Err ByteStr :=
  if t.layer_ID = 0 then write_byte 0 "empty texture"
  else do
    let b ← write_byte (t.layer_ID : ℤ) "texture layer ID"
    let f ← write_string t.filename "texture filename"
    .ok (b ++ f)

/-- `Coordinate3`: logical (x, y, z) position fields. -/
structure Coordinate3 where
  x : F32
  y : F32
  z : F32
  deriving DecidableEq, Repr

/-- `Coordinate3()` defaults (0.0, 0.0, 0.0). -/
def Coordinate3.init : Coordinate3 := ⟨F32.zero, F32.zero, F32.zero⟩

/-- `Coordinate3.parse`: the keyword arguments of `set_pos` are evaluated in
source order, so the wire order is x, then z, then y. -/
def Coordinate3.parse (s : ByteStr) : Except Err (Coordinate3 × ByteStr) := do
  let (xv, s1) ← read_float "x-position" s
  let (zv, s2) ← read_float "z-position" s1
  let (yv, s3) ← read_float "y-position" s2
  .ok (⟨xv, yv, zv⟩, s3)

/-- `Coordinate3.write`: emits x, then z, then y. -/
def Coordinate3.write (c : Coordinate3) : Except Err ByteStr := do
  let wx ← write_float c.x "x-position"
  let wz ← write_float c.z "z-position"
  let wy ← write_float c.y "y-position"
  .ok (wx ++ wz ++ wy)

/-- `UV` texture coordinate. -/
structure UV where
  u : F32
  v : F32
  deriving DecidableEq, Repr

/-- `UV()` defaults. -/
def UV.init : UV := ⟨F32.zero, F32.zero⟩

/-- `UV.parse`. -/
def UV.parse (s : ByteStr) : Except Err (UV × ByteStr) := do
  let (uv, s1) ← read_float "u-position" s
  let (vv, s2) ← read_float "v-position" s1
  .ok (⟨uv, vv⟩, s2)

/-- `UV.write`. -/
def UV.write (w : UV) : Except Err ByteStr := do
  let wu ← write_float w.u "u-position"
  let wv ← write_float w.v "v-position"
  .ok (wu ++ wv)

/-- `Color`: Python ints (a text parse can produce values outside 0..255). -/
structure Color where
  r : ℤ
  g : ℤ
  b : ℤ
  deriving DecidableEq, Repr

/-- `Color()` defaults. -/
def Color.init : Color := ⟨0, 0, 0⟩

/-- `Color.parse_as_bytes`: three raw bytes r, g, b. -/
def Color.parse_as_bytes (s : ByteStr) : Except Err (Color × ByteStr) := do
  let (rv, s1) ← read_byte "red value" s
  let (gv, s2) ← read_byte "green value" s1
  let (bv, s3) ← read_byte "blue value" s2
  .ok (⟨rv, gv, bv⟩, s3)

/-- `Color.write_as_bytes`. -/
def Color.write_as_bytes (c : Color) : Except Err ByteStr := do
  let wr ← write_byte c.r "red value"
  let wg ← write_byte c.g "green value"
  let wb ← write_byte c.b "blue value"
  .ok (wr ++ wg ++ wb)

/-- Convert each token with Python `int`, left to right; the first bad token
raises `ValueError` (the `map` iterator is consumed during argument unpacking,
before the arity of `set_rgb` / `set_angle` is checked). -/
def mapPyInt : List (List Nat) → Except Err (List ℤ)
  | [] => .ok []
  | t :: ts =>
      match pyInt t with
      | some v => do
          let vs ← mapPyInt ts
          .ok (v :: vs)
      | none => .error (.valueError "invalid literal for int with base 10")

/-- `Color.parse_as_string`: a length-prefixed string split on whitespace and
unpacked into `set_rgb(r, g, b)`; a token count other than 3 is a `TypeError`
from the unpacking, exactly as in the source. -/
def Color.parse_as_string (s : ByteStr) : Except Err (Color × ByteStr) := do
  let (cs, s1) ← read_string "color string" s
  let vals ← mapPyInt (pySplit cs)
  match vals with
  | [rv, gv, bv] => .ok (⟨rv, gv, bv⟩, s1)
  | _ => .error (.typeError "set_rgb argument count")

/-- The codes of the f-string `"{r} {g} {b}"` rendering of a color. -/
def colorString (c : Color) : List Nat :=
  fmtInt c.r ++ 32 :: fmtInt c.g ++ 32 :: fmtInt c.b

/-- `Color.write_as_string`. -/
def Color.write_as_string (c : Color) : Except Err ByteStr :=
  write_string (colorString c) "color string"

/-- `Angle`: pitch/yaw/roll, each a Python number. -/
structure Angle where
  pitch : PyNum
  yaw : PyNum
  roll : PyNum
  deriving DecidableEq, Repr

/-- `Angle()` defaults (floats 0.0). -/
def Angle.init : Angle := ⟨.pfloat F32.zero, .pfloat F32.zero, .pfloat F32.zero⟩

/-- `Angle.parse_as_bytes`: three little-endian floats pitch, yaw, roll. -/
def Angle.parse_as_bytes (s : ByteStr) : Except Err (Angle × ByteStr) := do
  let (pv, s1) ← read_float "pitch value" s
  let (yv, s2) ← read_float "yaw value" s1
  let (rv, s3) ← read_float "roll value" s2
  .ok (⟨.pfloat pv, .pfloat yv, .pfloat rv⟩, s3)

/-- `Angle.write_as_bytes`. -/
def Angle.write_as_bytes (a : Angle) : Except Err ByteStr := do
  let wp ← write_float (numToF32 a.pitch) "pitch value"
  let wy ← write_float (numToF32 a.yaw) "yaw value"
  let wr ← write_float (numToF32 a.roll) "roll value"
  .ok (wp ++ wy ++ wr)

/-- `Angle.parse_as_string`: like the color string but into `set_angle`. -/
def Angle.parse_as_string (s : ByteStr) : Except Err (Angle × ByteStr) := do
  let (as_, s1) ← read_string "angle string" s
  let vals ← mapPyInt (pySplit as_)
  match vals with
  | [pv, yv, rv] => .ok (⟨.pint pv, .pint yv, .pint rv⟩, s1)
  | _ => .error (.typeError "set_angle argument count")

/-- `Angle.write_as_string`: the f-string rounds each field with Python
`round` (ties to even) before formatting. -/
def Angle.write_as_string (a : Angle) : Except Err ByteStr := do
  let pv ← pyRoundNum a.pitch
  let yv ← pyRoundNum a.yaw
  let rv ← pyRoundNum a.roll
  write_string (fmtInt pv ++ 32 :: fmtInt yv ++ 32 :: fmtInt rv) "angle string"

/-- `Scale`. -/
structure Scale where
  x_scale : F32
  y_scale : F32
  z_scale : F32
  deriving DecidableEq, Repr

/-- `Scale()` defaults (1.0, 1.0, 1.0). -/
def Scale.init : Scale := ⟨F32.one, F32.one, F32.one⟩

/-- `Scale.parse`: x, y, z wire order (no axis swap). -/
def Scale.parse (s : ByteStr) : Except Err (Scale × ByteStr) := do
  let (xv, s1) ← read_float "x-scale" s
  let (yv, s2) ← read_float "y-scale" s1
  let (zv, s3) ← read_float "z-scale" s2
  .ok (⟨xv, yv, zv⟩, s3)

/-- `Scale.write`. -/
def Scale.write (sc : Scale) : Except Err ByteStr := do
  let wx ← write_float sc.x_scale "x-scale"
  let wy ← write_float sc.y_scale "y-scale"
  let wz ← write_float sc.z_scale "z-scale"
  .ok (wx ++ wy ++ wz)

/-! ### Structural aggregates -/

/-- `Vertex`. -/
structure Vertex where
  pos : Coordinate3
  uv_1 : UV
  uv_2 : UV
  color : Color
  deriving DecidableEq, Repr

/-- `Vertex()` defaults. -/
def Vertex.init : Vertex := ⟨Coordinate3.init, UV.init, UV.init, Color.init⟩

/-- `Vertex.parse`: every field is fully overwritten, so the prior state is
irrelevant. -/
def Vertex.parse (s : ByteStr) : Except Err (Vertex × ByteStr) := do
  let (p, s1) ← Coordinate3.parse s
  let (u1, s2) ← UV.parse s1
  let (u2, s3) ← UV.parse s2
  let (c, s4) ← Color.parse_as_bytes s3
  .ok (⟨p, u1, u2, c⟩, s4)

/-- `Vertex.write`. -/
def Vertex.write (v : Vertex) : Except Err ByteStr := do
  let wp ← Coordinate3.write v.pos
  let w1 ← UV.write v.uv_1
  let w2 ← UV.write v.uv_2
  let wc ← Color.write_as_bytes v.color
  .ok (wp ++ w1 ++ w2 ++ wc)

/-- `Triangle`: three u32 vertex indices. -/
structure Triangle where
  index_1 : Nat
  index_2 : Nat
  index_3 : Nat
  deriving DecidableEq, Repr

/-- `Triangle()` defaults. -/
def Triangle.init : Triangle := ⟨0, 0, 0⟩

/-- `Triangle.parse`. -/
def Triangle.parse (s : ByteStr) : Except Err (Triangle × ByteStr) := do
  let (i1, s1) ← read_integer "triangle index 1" s
  let (i2, s2) ← read_integer "triangle index 2" s1
  let (i3, s3) ← read_integer "triangle index 3" s2
  .ok (⟨i1, i2, i3⟩, s3)

/-- `Triangle.write` (the source passes no context, keeping the default). -/
def Triangle.write (t : Triangle) : Except Err ByteStr := do
  let w1 ← write_integer t.index_1 "integer data"
  let w2 ← write_integer t.index_2 "integer data"
  let w3 ← write_integer t.index_3 "integer data"
  .ok (w1 ++ w2 ++ w3)

/-- A `for _ in range(n)` parse loop that appends each parsed element to the
accumulating list field of the parsing object. -/
def parseCount {α : Type} (n : Nat) (step : ByteStr → Except Err (α × ByteStr))
    (acc : List α) (s : ByteStr) : Except Err (List α × ByteStr) :=
  match n with
  | 0 => .ok (acc, s)
  | m + 1 => do
      let (x, s1) ← step s
      parseCount m step (acc ++ [x]) s1

/-- A `for x in l: x.write(file)` loop, concatenating the emitted bytes. -/
def writeList {α : Type} (f : α → Except Err ByteStr) : List α → Except Err ByteStr
  | [] => .ok []
  | x :: xs => do
      let w ← f x
      let ws ← writeList f xs
      .ok (w ++ ws)

/-- `Object` (a render object). -/
structure Object where
  textures : List Texture
  vertices : List Vertex
  triangles : List Triangle
  deriving DecidableEq, Repr

/-- `Object()` defaults. -/
def Object.init : Object := ⟨[], [], []⟩

/-- `Object.parse`: appends to the prior state's lists, as the Python method
appends to `self`. -/
def Object.parse (o : Object) (s : ByteStr) : Except Err (Object × ByteStr) := do
  let (ts, s1) ← parseCount 2 Texture.parse o.textures s
  let (vc, s2) ← read_integer "object vertex count" s1
  let (vs, s3) ← parseCount vc Vertex.parse o.vertices s2
  let (tc, s4) ← read_integer "object triangle count" s3
  let (tris, s5) ← parseCount tc Triangle.parse o.triangles s4
  .ok (⟨ts, vs, tris⟩, s5)

/-- The `while len(self.textures) < 2: self.textures.insert(0, Texture())`
loop of `Object.write`: each pass prepends one default `Texture()`, and at
most two passes can ever run, so two units of fuel are exact. -/
def padGo : Nat → List Texture → List Texture
  | 0, ts => ts
  | k + 1, ts => if ts.length < 2 then padGo k (Texture.init :: ts) else ts

/-- The texture list as emitted by `Object.write`. -/
def padTextures (ts : List Texture) : List Texture := padGo 2 ts

/-- `Object.write`.  (The Python method pads `self.textures` in place before
emission; the model keeps `write` pure and pads only the emitted list, which
produces the same bytes.) -/
def Object.write (o : Object) : Except Err ByteStr := do
  let tw ← writeList Texture.write (padTextures o.textures)
  let vcw ← write_integer o.vertices.length "object vertex count"
  let vw ← writeList Vertex.write o.vertices
  let tcw ← write_integer o.triangles.length "object triangle count"
  let trw ← writeList Triangle.write o.triangles
  .ok (tw ++ vcw ++ vw ++ tcw ++ trw)

/-- `Collision`. -/
structure Collision where
  vertices : List Coordinate3
  triangles : List Triangle
  deriving DecidableEq, Repr

/-- `Collision()` defaults. -/
def Collision.init : Collision := ⟨[], []⟩

/-- `Collision.parse`: appends to the prior state's lists. -/
def Collision.parse (c : Collision) (s : ByteStr) : Except Err (Collision × ByteStr) := do
  let (vc, s1) ← read_integer "collision vertex count" s
  let (vs, s2) ← parseCount vc Coordinate3.parse c.vertices s1
  let (tc, s3) ← read_integer "collision triangle count" s2
  let (tris, s4) ← parseCount tc Triangle.parse c.triangles s3
  .ok (⟨vs, tris⟩, s4)

/-- `Collision.write`. -/
def Collision.write (c : Collision) : Except Err ByteStr := do
  let vcw ← write_integer c.vertices.length "collision vertex count"
  let vw ← writeList Coordinate3.write c.vertices
  let tcw ← write_integer c.triangles.length "collision triangle count"
  let tw ← writeList Triangle.write c.triangles
  .ok (vcw ++ vw ++ tcw ++ tw)

/-- `TriggerBox`. -/
structure TriggerBox where
  collisions : List Collision
  name : List Nat
  deriving DecidableEq, Repr

/-- `TriggerBox()` defaults. -/
def TriggerBox.init : TriggerBox := ⟨[], []⟩

/-- `TriggerBox.parse`: appends collisions to the prior state; the name is
overwritten. -/
def TriggerBox.parse (t : TriggerBox) (s : ByteStr) : Except Err (TriggerBox × ByteStr) := do
  let (cc, s1) ← read_integer "trigger box collision count" s
  let (cs, s2) ← parseCount cc (Collision.parse Collision.init) t.collisions s1
  let (nm, s3) ← read_string "trigger box name" s2
  .ok (⟨cs, nm⟩, s3)

/-- `TriggerBox.write`. -/
def TriggerBox.write (t : TriggerBox) : Except Err ByteStr := do
  let ccw ← write_integer t.collisions.length "trigger box collision count"
  let cw ← writeList Collision.write t.collisions
  let nw ← write_string t.name "trigger box name"
  .ok (ccw ++ cw ++ nw)

/-! ### Point variants -/

/-- `Screen`. -/
structure Screen where
  pos : Coordinate3
  path : List Nat
  deriving DecidableEq, Repr

/-- `Screen.parse` (both fields fully overwritten). -/
def Screen.parse (s : ByteStr) : Except Err (Screen × ByteStr) := do
  let (p, s1) ← Coordinate3.parse s
  let (pa, s2) ← read_string "screen image path" s1
  .ok (⟨p, pa⟩, s2)

/-- `Screen.write`: classname first, then the fields. -/
def Screen.write (v : Screen) : Except Err ByteStr := do
  let cn ← write_string (codes "screen") "screen classname"
  let wp ← Coordinate3.write v.pos
  let wa ← write_string v.path "screen image path"
  .ok (cn ++ wp ++ wa)

/-- `Waypoint`. -/
structure Waypoint where
  pos : Coordinate3
  deriving DecidableEq, Repr

/-- `Waypoint.parse`. -/
def Waypoint.parse (s : ByteStr) : Except Err (Waypoint × ByteStr) := do
  let (p, s1) ← Coordinate3.parse s
  .ok (⟨p⟩, s1)

/-- `Waypoint.write`. -/
def Waypoint.write (v : Waypoint) : Except Err ByteStr := do
  let cn ← write_string (codes "waypoint") "waypoint classname"
  let wp ← Coordinate3.write v.pos
  .ok (cn ++ wp)

/-- `Light`. -/
structure Light where
  pos : Coordinate3
  range : F32
  color : Color
  intensity : F32
  deriving DecidableEq, Repr

/-- `Light.parse`. -/
def Light.parse (s : ByteStr) : Except Err (Light × ByteStr) := do
  let (p, s1) ← Coordinate3.parse s
  let (rg, s2) ← read_float "light range" s1
  let (c, s3) ← Color.parse_as_string s2
  let (it, s4) ← read_float "light intensity" s3
  .ok (⟨p, rg, c, it⟩, s4)

/-- `Light.write`. -/
def Light.write (v : Light) : Except Err ByteStr := do
  let cn ← write_string (codes "light") "light classname"
  let wp ← Coordinate3.write v.pos
  let wr ← write_float v.range "light range"
  let wc ← Color.write_as_string v.color
  let wi ← write_float v.intensity "light intensity"
  .ok (cn ++ wp ++ wr ++ wc ++ wi)

/-- `Spotlight`. -/
structure Spotlight where
  pos : Coordinate3
  range : F32
  color : Color
  intensity : F32
  angle : Angle
  inner_angle : Nat
  outer_angle : Nat
  deriving DecidableEq, Repr

/-- `Spotlight.parse`. -/
def Spotlight.parse (s : ByteStr) : Except Err (Spotlight × ByteStr) := do
  let (p, s1) ← Coordinate3.parse s
  let (rg, s2) ← read_float "spotlight range" s1
  let (c, s3) ← Color.parse_as_string s2
  let (it, s4) ← read_float "spotlight intensity" s3
  let (an, s5) ← Angle.parse_as_string s4
  let (ia, s6) ← read_integer "spotlight inner angle" s5
  let (oa, s7) ← read_integer "spotlight outer angle" s6
  .ok (⟨p, rg, c, it, an, ia, oa⟩, s7)

/-- `Spotlight.write`. -/
def Spotlight.write (v : Spotlight) : Except Err ByteStr := do
  let cn ← write_string (codes "spotlight") "spotlight classname"
  let wp ← Coordinate3.write v.pos
  let wr ← write_float v.range "spotlight range"
  let wc ← Color.write_as_string v.color
  let wi ← write_float v.intensity "spotlight intensity"
  let wa ← Angle.write_as_string v.angle
  let wia ← write_integer v.inner_angle "spotlight inner angle"
  let woa ← write_integer v.outer_angle "spotlight outer angle"
  .ok (cn ++ wp ++ wr ++ wc ++ wi ++ wa ++ wia ++ woa)

/-- `SoundEmitter`. -/
structure SoundEmitter where
  pos : Coordinate3
  sound : Nat
  range : F32
  deriving DecidableEq, Repr

/-- `SoundEmitter.parse`. -/
def SoundEmitter.parse (s : ByteStr) : Except Err (SoundEmitter × ByteStr) := do
  let (p, s1) ← Coordinate3.parse s
  let (sd, s2) ← read_integer "sound emitter sound" s1
  let (rg, s3) ← read_float "sound emitter range" s2
  .ok (⟨p, sd, rg⟩, s3)

/-- `SoundEmitter.write`. -/
def SoundEmitter.write (v : SoundEmitter) : Except Err ByteStr := do
  let cn ← write_string (codes "soundemitter") "sound emitter classname"
  let wp ← Coordinate3.write v.pos
  let ws ← write_integer v.sound "sound emitter sound"
  let wr ← write_float v.range "sound emitter range"
  .ok (cn ++ wp ++ ws ++ wr)

/-- `PlayerStart`. -/
structure PlayerStart where
  pos : Coordinate3
  angle : Angle
  deriving DecidableEq, Repr

/-- `PlayerStart.parse`. -/
def PlayerStart.parse (s : ByteStr) : Except Err (PlayerStart × ByteStr) := do
  let (p, s1) ← Coordinate3.parse s
  let (an, s2) ← Angle.parse_as_string s1
  .ok (⟨p, an⟩, s2)

/-- `PlayerStart.write`. -/
def PlayerStart.write (v : PlayerStart) : Except Err ByteStr := do
  let cn ← write_string (codes "playerstart") "player start classname"
  let wp ← Coordinate3.write v.pos
  let wa ← Angle.write_as_string v.angle
  .ok (cn ++ wp ++ wa)

/-- `Model`. -/
structure Model where
  path : List Nat
  pos : Coordinate3
  angle : Angle
  scale : Scale
  deriving DecidableEq, Repr

/-- `Model.parse`. -/
def Model.parse (s : ByteStr) : Except Err (Model × ByteStr) := do
  let (pa, s1) ← read_string "model path" s
  let (p, s2) ← Coordinate3.parse s1
  let (an, s3) ← Angle.parse_as_bytes s2
  let (sc, s4) ← Scale.parse s3
  .ok (⟨pa, p, an, sc⟩, s4)

/-- `Model.write`. -/
def Model.write (v : Model) : Except Err ByteStr := do
  let cn ← write_string (codes "model") "model classname"
  let wa ← write_string v.path "model path"
  let wp ← Coordinate3.write v.pos
  let wan ← Angle.write_as_bytes v.angle
  let wsc ← Scale.write v.scale
  .ok (cn ++ wa ++ wp ++ wan ++ wsc)

/-- The `Point` hierarchy, as a sum over the seven concrete subclasses. -/
inductive Point where
  | screen (v : Screen)
  | waypoint (v : Waypoint)
  | light (v : Light)
  | spotlight (v : Spotlight)
  | soundemitter (v : SoundEmitter)
  | playerstart (v : PlayerStart)
  | model (v : Model)
  deriving DecidableEq, Repr

/-- Virtual dispatch of `point.write(file)`. -/
def Point.write : Point → Except Err ByteStr
  | .screen v => v.write
  | .waypoint v => v.write
  | .light v => v.write
  | .spotlight v => v.write
  | .soundemitter v => v.write
  | .playerstart v => v.write
  | .model v => v.write

/-- The classname literals matched by the `match classname` in `RoomMesh.parse`. -/
def recognizedClassnames : List (List Nat) :=
  [codes "screen", codes "waypoint", codes "light", codes "spotlight",
   codes "soundemitter", codes "playerstart", codes "model"]

/-- One iteration of the point loop of `RoomMesh.parse`: read the classname,
then dispatch.  An unmatched classname falls through the `match` statement:
no point is produced and no byte beyond the classname is consumed. -/
def parseOnePoint (s : ByteStr) : Except Err (Option Point × ByteStr) := do
  let (cname, s1) ← read_string "point classname" s
  if cname = codes "screen" then do
    let (v, s2) ← Screen.parse s1
    .ok (some (.screen v), s2)
  else if cname = codes "waypoint" then do
    let (v, s2) ← Waypoint.parse s1
    .ok (some (.waypoint v), s2)
  else if cname = codes "light" then do
    let (v, s2) ← Light.parse s1
    .ok (some (.light v), s2)
  else if cname = codes "spotlight" then do
    let (v, s2) ← Spotlight.parse s1
    .ok (some (.spotlight v), s2)
  else if cname = codes "soundemitter" then do
    let (v, s2) ← SoundEmitter.parse s1
    .ok (some (.soundemitter v), s2)
  else if cname = codes "playerstart" then do
    let (v, s2) ← PlayerStart.parse s1
    .ok (some (.playerstart v), s2)
  else if cname = codes "model" then do
    let (v, s2) ← Model.parse s1
    .ok (some (.model v), s2)
  else
    .ok (none, s1)

/-- The point loop: parsed points are appended; unmatched classnames append
nothing. -/
def parsePoints : Nat → List Point → ByteStr → Except Err (List Point × ByteStr)
  | 0, acc, s => .ok (acc, s)
  | n + 1, acc, s => do
      let (opt, s1) ← parseOnePoint s
      match opt with
      | some pt => parsePoints n (acc ++ [pt]) s1
      | none => parsePoints n acc s1

/-! ### The document -/

/-- `RoomMesh`. -/
structure RoomMesh where
  signature : List Nat
  objects : List Object
  collisions : List Collision
  triggers : List TriggerBox
  points : List Point
  deriving DecidableEq, Repr

/-- `RoomMesh()` defaults. -/
def RoomMesh.init : RoomMesh := ⟨[], [], [], [], []⟩

/-- The trigger-box block of `RoomMesh.parse`: a count and that many boxes are
read exactly when the signature is the trigger-bearing literal; otherwise
nothing is consumed and the trigger list is left as it was. -/
def parseTriggerSection (sig : List Nat) (acc : List TriggerBox) (s : ByteStr) :
    Except Err (List TriggerBox × ByteStr) :=
  if sig = codes "RoomMesh.HasTriggerBox" then do
    let (tc, s1) ← read_integer "trigger count" s
    parseCount tc (TriggerBox.parse TriggerBox.init) acc s1
  else .ok (acc, s)

/-- `RoomMesh.parse` after the signature has been read and validated. -/
def RoomMesh.parseBody (r : RoomMesh) (sig : List Nat) (s : ByteStr) :
    Except Err (RoomMesh × ByteStr) := do
  let (oc, s1) ← read_integer "object count" s
  let (objs, s2) ← parseCount oc (Object.parse Object.init) r.objects s1
  let (cc, s3) ← read_integer "collision count" s2
  let (cols, s4) ← parseCount cc (Collision.parse Collision.init) r.collisions s3
  let (trigs, s5) ← parseTriggerSection sig r.triggers s4
  let (pc, s6) ← read_integer "point count" s5
  let (pts, s7) ← parsePoints pc r.points s6
  .ok (⟨sig, objs, cols, trigs, pts⟩, s7)

/-- `RoomMesh.parse`: read the signature, raise `ValueError` unless it is one
of the two recognized literals, then parse the body, appending every parsed
element to the prior state's lists. -/
def RoomMesh.parse (r : RoomMesh) (s : ByteStr) : Except Err (RoomMesh × ByteStr) := do
  let (sig, s1) ← read_string "file signature" s
  if sig = codes "RoomMesh" ∨ sig = codes "RoomMesh.HasTriggerBox" then
    RoomMesh.parseBody r sig s1
  else
    .error (.valueError "Unexpected signature string")

/-- The trigger-box block of `RoomMesh.write`: count plus boxes only when the
trigger list is non-empty, nothing at all otherwise. -/
def triggerSectionW (l : List TriggerBox) : Except Err ByteStr :=
  if 0 < l.length then do
    let cw ← write_integer l.length "trigger count"
    let tw ← writeList TriggerBox.write l
    .ok (cw ++ tw)
  else .ok []

/-- `RoomMesh.write`: signature, objects, collisions, the conditional trigger
block, points, then the unconditional length-prefixed `"EOF"` sentinel. -/
def RoomMesh.write (r : RoomMesh) : Except Err ByteStr := do
  let sw ← write_string r.signature "file signature"
  let ocw ← write_integer r.objects.length "object count"
  let ow ← writeList Object.write r.objects
  let ccw ← write_integer r.collisions.length "collision count"
  let colw ← writeList Collision.write r.collisions
  let tw ← triggerSectionW r.triggers
  let pcw ← write_integer r.points.length "point count"
  let pw ← writeList Point.write r.points
  let ew ← write_string (codes "EOF") "end of file"
  .ok (sw ++ ocw ++ ow ++ ccw ++ colw ++ tw ++ pcw ++ pw ++ ew)

/-! ### Well-formedness predicates

`WF...` states the invariants that `parse` guarantees for each entity, which
are exactly the conditions under which `write` re-emits it and a re-parse
reconstructs it.  The `...StrOK` size conditions on re-rendered text fields
are not parse-guaranteed (a parsed color int can in principle need ≥ 2^32
characters to re-render); they are stated separately. -/

/-- A length-prefixed string is writable: short enough and 7-bit clean. -/
def StrOK (s : List Nat) : Prop := s.length < 4294967296 ∧ ∀ c ∈ s, c < 128

instance (s : List Nat) : Decidable (StrOK s) := by
  unfold StrOK
  infer_instance

/-- What `Texture.parse` guarantees and `Texture.write` round-trips. -/
def WFTexture (t : Texture) : Prop :=
  t.layer_ID < 256 ∧ (t.layer_ID = 0 → t.filename = []) ∧
    (t.layer_ID ≠ 0 → StrOK t.filename)

instance (t : Texture) : Decidable (WFTexture t) := by
  unfold WFTexture
  infer_instance

/-- Byte-encodable color components (as `parse_as_bytes` produces). -/
def ColorBytesOK (c : Color) : Prop :=
  0 ≤ c.r ∧ c.r < 256 ∧ 0 ≤ c.g ∧ c.g < 256 ∧ 0 ≤ c.b ∧ c.b < 256

instance (c : Color) : Decidable (ColorBytesOK c) := by
  unfold ColorBytesOK
  infer_instance

/-- The re-rendered color string fits the u32 length prefix. -/
def ColorStrOK (c : Color) : Prop := (colorString c).length < 4294967296

instance (c : Color) : Decidable (ColorStrOK c) := by
  unfold ColorStrOK
  infer_instance

/-- The int stored in a `PyNum`, defaulting to 0 on floats. -/
def PyNum.intVal : PyNum → ℤ
  | .pint z => z
  | .pfloat _ => 0

/-- The float pattern stored in a `PyNum`, defaulting to 0.0 on ints. -/
def PyNum.floatVal : PyNum → F32
  | .pfloat f => f
  | .pint _ => F32.zero

/-- All three fields are Python ints (as `Angle.parse_as_string` produces). -/
def AngleIntOK (a : Angle) : Prop :=
  a.pitch = .pint a.pitch.intVal ∧ a.yaw = .pint a.yaw.intVal ∧
    a.roll = .pint a.roll.intVal

instance (a : Angle) : Decidable (AngleIntOK a) := by
  unfold AngleIntOK
  infer_instance

/-- The codes of the angle f-string for an int-valued angle. -/
def angleString (a : Angle) : List Nat :=
  fmtInt a.pitch.intVal ++ 32 :: fmtInt a.yaw.intVal ++ 32 :: fmtInt a.roll.intVal

/-- Int-valued and the re-rendered angle string fits the length prefix. -/
def AngleStrOK (a : Angle) : Prop :=
  AngleIntOK a ∧ (angleString a).length < 4294967296

instance (a : Angle) : Decidable (AngleStrOK a) := by
  unfold AngleStrOK
  infer_instance

/-- All three fields are Python floats (as `Angle.parse_as_bytes` produces). -/
def AngleFloatOK (a : Angle) : Prop :=
  a.pitch = .pfloat a.pitch.floatVal ∧ a.yaw = .pfloat a.yaw.floatVal ∧
    a.roll = .pfloat a.roll.floatVal

instance (a : Angle) : Decidable (AngleFloatOK a) := by
  unfold AngleFloatOK
  infer_instance

/-- What `Vertex.parse` guarantees. -/
def WFVertex (v : Vertex) : Prop := ColorBytesOK v.color

instance (v : Vertex) : Decidable (WFVertex v) := by
  unfold WFVertex
  infer_instance

/-- What `Triangle.parse` guarantees. -/
def WFTriangle (t : Triangle) : Prop :=
  t.index_1 < 4294967296 ∧ t.index_2 < 4294967296 ∧ t.index_3 < 4294967296

instance (t : Triangle) : Decidable (WFTriangle t) := by
  unfold WFTriangle
  infer_instance

/-- What `Object.parse` (from a fresh `Object()`) guarantees. -/
def WFObject (o : Object) : Prop :=
  o.textures.length = 2 ∧ (∀ t ∈ o.textures, WFTexture t) ∧
    o.vertices.length < 4294967296 ∧ (∀ v ∈ o.vertices, WFVertex v) ∧
    o.triangles.length < 4294967296 ∧ (∀ t ∈ o.triangles, WFTriangle t)

instance (o : Object) : Decidable (WFObject o) := by
  unfold WFObject
  infer_instance

/-- What `Collision.parse` (from a fresh `Collision()`) guarantees. -/
def WFCollision (c : Collision) : Prop :=
  c.vertices.length < 4294967296 ∧ c.triangles.length < 4294967296 ∧
    ∀ t ∈ c.triangles, WFTriangle t

instance (c : Collision) : Decidable (WFCollision c) := by
  unfold WFCollision
  infer_instance

/-- What `TriggerBox.parse` (from a fresh `TriggerBox()`) guarantees. -/
def WFTrigger (t : TriggerBox) : Prop :=
  t.collisions.length < 4294967296 ∧ (∀ c ∈ t.collisions, WFCollision c) ∧
    StrOK t.name

instance (t : TriggerBox) : Decidable (WFTrigger t) := by
  unfold WFTrigger
  infer_instance

/-- What point dispatch in `RoomMesh.parse` guarantees per variant. -/
def WFPoint : Point → Prop
  | .screen v => StrOK v.path
  | .waypoint _ => True
  | .light _ => True
  | .spotlight v => AngleIntOK v.angle ∧ v.inner_angle < 4294967296 ∧
      v.outer_angle < 4294967296
  | .soundemitter v => v.sound < 4294967296
  | .playerstart v => AngleIntOK v.angle
  | .model v => StrOK v.path ∧ AngleFloatOK v.angle

instance : (p : Point) → Decidable (WFPoint p)
  | .screen v => (inferInstance : Decidable (StrOK v.path))
  | .waypoint _ => (inferInstance : Decidable True)
  | .light _ => (inferInstance : Decidable True)
  | .spotlight _ => (inferInstance : Decidable (_ ∧ _ ∧ _))
  | .soundemitter _ => (inferInstance : Decidable (_ < _))
  | .playerstart v => (inferInstance : Decidable (AngleIntOK v.angle))
  | .model _ => (inferInstance : Decidable (_ ∧ _))

/-- The size conditions on a point's re-rendered text fields (not
parse-guaranteed; violable only by astronomically long numeric strings). -/
def SizePoint : Point → Prop
  | .light v => ColorStrOK v.color
  | .spotlight v => ColorStrOK v.color ∧ (angleString v.angle).length < 4294967296
  | .playerstart v => (angleString v.angle).length < 4294967296
  | _ => True

instance : (p : Point) → Decidable (SizePoint p)
  | .screen _ => (inferInstance : Decidable True)
  | .waypoint _ => (inferInstance : Decidable True)
  | .light v => (inferInstance : Decidable (ColorStrOK v.color))
  | .spotlight _ => (inferInstance : Decidable (_ ∧ _))
  | .soundemitter _ => (inferInstance : Decidable True)
  | .playerstart _ => (inferInstance : Decidable (_ < _))
  | .model _ => (inferInstance : Decidable True)

/-- What `RoomMesh.parse` from a fresh `RoomMesh()` guarantees. -/
def WFDoc (d : RoomMesh) : Prop :=
  (d.signature = codes "RoomMesh" ∨ d.signature = codes "RoomMesh.HasTriggerBox") ∧
    (d.signature = codes "RoomMesh" → d.triggers = []) ∧
    d.objects.length < 4294967296 ∧ (∀ o ∈ d.objects, WFObject o) ∧
    d.collisions.length < 4294967296 ∧ (∀ c ∈ d.collisions, WFCollision c) ∧
    d.triggers.length < 4294967296 ∧ (∀ t ∈ d.triggers, WFTrigger t) ∧
    d.points.length < 4294967296 ∧ (∀ p ∈ d.points, WFPoint p)

instance (d : RoomMesh) : Decidable (WFDoc d) := by
  unfold WFDoc
  infer_instance

/-- The size conditions of all points of a document. -/
def SizeDoc (d : RoomMesh) : Prop := ∀ p ∈ d.points, SizePoint p

instance (d : RoomMesh) : Decidable (SizeDoc d) := by
  unfold SizeDoc
  infer_instance

/-! ### Round-trip lemmas for the primitive codec -/

@[simp] theorem ok_bind {α β : Type} (a : α) (f : α → Except Err β) :
    (Except.ok a >>= f) = f a := rfl

@[simp] theorem error_bind {α β : Type} (e : Err) (f : α → Except Err β) :
    ((Except.error e : Except Err α) >>= f) = Except.error e := rfl

theorem read_byte_cons (b : Byte) (r : ByteStr) (ctx : String) :
    read_byte ctx (b :: r) = .ok (b.val, r) := rfl

theorem read_integer_u32 (v : Nat) (h : v < 4294967296) (r : ByteStr) (ctx : String) :
    read_integer ctx (u32Bytes v ++ r) = .ok (v, r) := by
  simp only [u32Bytes, byteOfNat, List.cons_append, List.nil_append, read_integer,
    Except.ok.injEq, Prod.mk.injEq, and_true]
  omega

theorem write_integer_ok (v : Nat) (h : v < 4294967296) (ctx : String) :
    write_integer v ctx = .ok (u32Bytes v) := by
  simp [write_integer, h]

theorem read_float_bytes (f : F32) (r : ByteStr) (ctx : String) :
    read_float ctx (f.bytes ++ r) = .ok (f, r) := rfl

theorem write_string_ok (s : List Nat) (h : StrOK s) (ctx : String) :
    write_string s ctx = .ok (strEnc s) := by
  obtain ⟨h1, h2⟩ := h
  simp only [write_string, write_integer, h1, if_true, ok_bind, strEnc]
  rw [if_pos]
  simp only [List.all_eq_true, decide_eq_true_eq]
  intro c hc
  exact h2 c hc

theorem read_string_strEnc (s : List Nat) (h : StrOK s) (r : ByteStr) (ctx : String) :
    read_string ctx (strEnc s ++ r) = .ok (s, r) := by
  obtain ⟨h1, h2⟩ := h
  have hlen : (List.map byteOfNat s).length = s.length := List.length_map _ _
  simp only [read_string, strEnc, List.append_assoc,
    read_integer_u32 s.length h1 (List.map byteOfNat s ++ r) ctx, ok_bind]
  have hle : s.length ≤ (List.map byteOfNat s ++ r).length := by
    simp [List.length_append, hlen]
  rw [if_pos hle]
  have htake : (List.map byteOfNat s ++ r).take s.length = List.map byteOfNat s := by
    rw [← hlen, List.take_left]
  have hdrop : (List.map byteOfNat s ++ r).drop s.length = r := by
    rw [← hlen, List.drop_left]
  rw [htake, hdrop]
  have hall : (List.map byteOfNat s).all (fun b => b.val < 128) = true := by
    simp only [List.all_eq_true, List.mem_map, decide_eq_true_eq]
    rintro b ⟨c, hc, rfl⟩
    have := h2 c hc
    simp only [byteOfNat]
    omega
  rw [if_pos hall]
  have : List.map Fin.val (List.map byteOfNat s) = s := by
    rw [List.map_map]
    have : ∀ c ∈ s, (Fin.val ∘ byteOfNat) c = c := by
      intro c hc
      have := h2 c hc
      simp only [Function.comp_apply, byteOfNat]
      omega
    calc List.map (Fin.val ∘ byteOfNat) s = List.map id s := List.map_congr_left this
    _ = s := List.map_id s
  rw [this]

/-! ### Decimal formatting round-trips -/

theorem natDigitsF_fuel : ∀ f1 f2 n, n < f1 → n < f2 → natDigitsF f1 n = natDigitsF f2 n := by
  intro f1
  induction f1 with
  | zero => intro f2 n h; omega
  | succ f ih =>
    intro f2 n h1 h2
    cases f2 with
    | zero => omega
    | succ g =>
      simp only [natDigitsF]
      by_cases hn : n < 10
      · simp [hn]
      · have hdl : n / 10 < n := Nat.div_lt_self (by omega) (by omega)
        simp only [hn, if_false]
        rw [ih g (n / 10) (by omega) (by omega)]

theorem natDigits_lt10 (n : Nat) (h : n < 10) : natDigits n = [48 + n] := by
  simp [natDigits, natDigitsF, h]

theorem natDigits_ge10 (n : Nat) (h : 10 ≤ n) :
    natDigits n = natDigits (n / 10) ++ [48 + n % 10] := by
  have h10 : ¬ n < 10 := by omega
  have hdl : n / 10 < n := Nat.div_lt_self (by omega) (by omega)
  simp only [natDigits, natDigitsF, h10, if_false]
  congr 1
  exact natDigitsF_fuel n (n / 10 + 1) (n / 10) (by omega) (Nat.lt_succ_self _)

theorem natDigits_digits (n : Nat) : ∀ c ∈ natDigits n, 48 ≤ c ∧ c ≤ 57 := by
  induction n using Nat.strong_induction_on with
  | _ n ih =>
    by_cases h : n < 10
    · rw [natDigits_lt10 n h]
      intro c hc
      simp only [List.mem_singleton] at hc
      omega
    · rw [natDigits_ge10 n (by omega)]
      intro c hc
      rcases List.mem_append.mp hc with hc | hc
      · exact ih (n / 10) (Nat.div_lt_self (by omega) (by omega)) c hc
      · simp only [List.mem_singleton] at hc
        have := Nat.mod_lt n (show 0 < 10 by omega)
        omega

theorem natDigits_ne_nil (n : Nat) : natDigits n ≠ [] := by
  by_cases h : n < 10
  · rw [natDigits_lt10 n h]
    simp
  · rw [natDigits_ge10 n (by omega)]
    simp

theorem pyIntGo_digits : ∀ (l : List Nat) (acc : Nat), (∀ c ∈ l, 48 ≤ c ∧ c ≤ 57) →
    pyIntGo acc l = some (l.foldl (fun a c => 10 * a + (c - 48)) acc) := by
  intro l
  induction l with
  | nil => intro acc _; simp [pyIntGo]
  | cons c rest ih =>
    intro acc h
    have hc := h c (List.mem_cons_self c rest)
    have hcD : isDigitCode c = true := by
      simp only [isDigitCode, decide_eq_true_eq]
      omega
    have hstep : pyIntGo acc (c :: rest) = pyIntGo (10 * acc + (c - 48)) rest := by
      cases rest <;> simp [pyIntGo, hcD]
    rw [hstep, List.foldl_cons]
    exact ih _ (fun x hx => h x (List.mem_cons_of_mem c hx))

theorem foldl_natDigits (n : Nat) : ∀ acc : Nat,
    (natDigits n).foldl (fun a c => 10 * a + (c - 48)) acc
      = acc * 10 ^ (natDigits n).length + n := by
  induction n using Nat.strong_induction_on with
  | _ n ih =>
    intro acc
    by_cases h : n < 10
    · rw [natDigits_lt10 n h]
      simp only [List.foldl_cons, List.foldl_nil, List.length_singleton, pow_one]
      omega
    · rw [natDigits_ge10 n (by omega)]
      rw [List.foldl_append]
      simp only [List.foldl_cons, List.foldl_nil, List.length_append,
        List.length_singleton]
      rw [ih (n / 10) (Nat.div_lt_self (by omega) (by omega)) acc]
      have hpow : acc * 10 ^ ((natDigits (n / 10)).length + 1)
          = 10 * (acc * 10 ^ (natDigits (n / 10)).length) := by
        ring
      rw [hpow]
      omega

theorem pyIntDigits_natDigits (n : Nat) : pyIntDigits (natDigits n) = some n := by
  obtain ⟨c, rest, hcr⟩ : ∃ c rest, natDigits n = c :: rest := by
    cases h : natDigits n with
    | nil => exact absurd h (natDigits_ne_nil n)
    | cons c rest => exact ⟨c, rest, rfl⟩
  have hdig := natDigits_digits n
  rw [hcr] at hdig
  have hc := hdig c (List.mem_cons_self _ _)
  have hcD : isDigitCode c = true := by
    simp only [isDigitCode, decide_eq_true_eq]
    omega
  have h0 := foldl_natDigits n 0
  rw [hcr] at h0
  simp only [List.foldl_cons, Nat.mul_zero, Nat.zero_add, Nat.zero_mul] at h0
  rw [hcr]
  simp only [pyIntDigits, hcD, if_true]
  rw [pyIntGo_digits rest (c - 48) (fun x hx => hdig x (List.mem_cons_of_mem _ hx))]
  exact congrArg some h0

theorem pyInt_fmtInt (z : ℤ) : pyInt (fmtInt z) = some z := by
  by_cases hz : z < 0
  · have h45 : (45 : ℕ) ≠ 43 := by omega
    simp only [fmtInt, hz, if_true, pyInt, if_neg h45, if_pos rfl]
    rw [pyIntDigits_natDigits]
    show some (-(z.natAbs : ℤ)) = some z
    congr 1
    omega
  · simp only [fmtInt, hz, if_false]
    obtain ⟨c, rest, hcr⟩ : ∃ c rest, natDigits z.toNat = c :: rest := by
      cases h : natDigits z.toNat with
      | nil => exact absurd h (natDigits_ne_nil _)
      | cons c rest => exact ⟨c, rest, rfl⟩
    have hc := natDigits_digits z.toNat c (by rw [hcr]; exact List.mem_cons_self _ _)
    have h43 : c ≠ 43 := by omega
    have h45 : c ≠ 45 := by omega
    rw [hcr]
    simp only [pyInt, if_neg h43, if_neg h45]
    rw [show (c :: rest) = natDigits z.toNat from hcr.symm, pyIntDigits_natDigits]
    show some ((z.toNat : ℤ)) = some z
    congr 1
    omega

theorem fmtInt_chars (z : ℤ) : ∀ c ∈ fmtInt z, c = 45 ∨ (48 ≤ c ∧ c ≤ 57) := by
  intro c hc
  by_cases hz : z < 0
  · simp only [fmtInt, hz, if_true] at hc
    rcases List.mem_cons.mp hc with h | h
    · exact Or.inl h
    · exact Or.inr (natDigits_digits _ c h)
  · simp only [fmtInt, hz, if_false] at hc
    exact Or.inr (natDigits_digits _ c hc)

theorem fmtInt_not_space (z : ℤ) : ∀ c ∈ fmtInt z, isSpaceCode c = false := by
  intro c hc
  rcases fmtInt_chars z c hc with h | h
  · simp [isSpaceCode, h]
  · simp only [isSpaceCode, decide_eq_false_iff_not]
    omega

theorem fmtInt_lt128 (z : ℤ) : ∀ c ∈ fmtInt z, c < 128 := by
  intro c hc
  rcases fmtInt_chars z c hc with h | h
  · omega
  · omega

theorem fmtInt_ne_nil (z : ℤ) : fmtInt z ≠ [] := by
  by_cases hz : z < 0
  · simp [fmtInt, hz]
  · simp [fmtInt, hz, natDigits_ne_nil]

/-! ### `str.split` lemmas -/

theorem splitWsGo_append (t : List Nat) (h : ∀ c ∈ t, isSpaceCode c = false) :
    ∀ cur rest, splitWsGo cur (t ++ rest) = splitWsGo (t.reverse ++ cur) rest := by
  induction t with
  | nil => intro cur rest; simp
  | cons c t' ih =>
    intro cur rest
    have hc := h c (List.mem_cons_self _ _)
    simp only [List.cons_append, splitWsGo, hc, Bool.false_eq_true, if_false,
      List.append_eq]
    rw [ih (fun x hx => h x (List.mem_cons_of_mem _ hx)) (c :: cur) rest]
    simp [List.append_assoc]

theorem splitWsGo_final (t : List Nat) (hne : t ≠ []) (h : ∀ c ∈ t, isSpaceCode c = false) :
    splitWsGo [] t = [t] := by
  have hstep := splitWsGo_append t h [] []
  rw [List.append_nil] at hstep
  rw [hstep]
  have hr : t.reverse ≠ [] := by simp [hne]
  simp only [splitWsGo, List.append_nil, if_neg hr, List.reverse_reverse]

theorem splitWsGo_sep (t rest : List Nat) (hne : t ≠ [])
    (h : ∀ c ∈ t, isSpaceCode c = false) :
    splitWsGo [] (t ++ 32 :: rest) = t :: splitWsGo [] rest := by
  rw [splitWsGo_append t h [] (32 :: rest)]
  have h32 : isSpaceCode 32 = true := by decide
  have hr : t.reverse ≠ [] := by simp [hne]
  simp only [splitWsGo, h32, if_true, List.append_nil, if_neg hr,
    List.reverse_reverse]

theorem pySplit_three (t1 t2 t3 : List Nat)
    (h1 : t1 ≠ []) (h2 : t2 ≠ []) (h3 : t3 ≠ [])
    (n1 : ∀ c ∈ t1, isSpaceCode c = false) (n2 : ∀ c ∈ t2, isSpaceCode c = false)
    (n3 : ∀ c ∈ t3, isSpaceCode c = false) :
    pySplit (t1 ++ 32 :: (t2 ++ 32 :: t3)) = [t1, t2, t3] := by
  unfold pySplit
  rw [splitWsGo_sep t1 _ h1 n1, splitWsGo_sep t2 _ h2 n2, splitWsGo_final t3 h3 n3]

theorem mapPyInt_three (t1 t2 t3 : List Nat) (v1 v2 v3 : ℤ)
    (h1 : pyInt t1 = some v1) (h2 : pyInt t2 = some v2) (h3 : pyInt t3 = some v3) :
    mapPyInt [t1, t2, t3] = .ok [v1, v2, v3] := by
  simp [mapPyInt, h1, h2, h3]


/-! ### Round-trips for the geometric value types

Parse equations are stated with right-associated streams and a universally
quantified `rest`, so that after `List.append_assoc` normalization they apply
as rewrite rules inside the aggregate proofs. -/

theorem coordinate3_write (c : Coordinate3) :
    Coordinate3.write c = .ok (c.x.bytes ++ (c.z.bytes ++ c.y.bytes)) := rfl

theorem coordinate3_parse (c : Coordinate3) (r : ByteStr) :
    Coordinate3.parse (c.x.bytes ++ (c.z.bytes ++ (c.y.bytes ++ r))) = .ok (c, r) := rfl

theorem uv_write (w : UV) : UV.write w = .ok (w.u.bytes ++ w.v.bytes) := rfl

theorem uv_parse (w : UV) (r : ByteStr) :
    UV.parse (w.u.bytes ++ (w.v.bytes ++ r)) = .ok (w, r) := rfl

theorem scale_write (sc : Scale) :
    Scale.write sc = .ok (sc.x_scale.bytes ++ (sc.y_scale.bytes ++ sc.z_scale.bytes)) := rfl

theorem scale_parse (sc : Scale) (r : ByteStr) :
    Scale.parse (sc.x_scale.bytes ++ (sc.y_scale.bytes ++ (sc.z_scale.bytes ++ r)))
      = .ok (sc, r) := rfl

theorem angle_bytes_rt (a : Angle) (h : AngleFloatOK a) :
    Angle.write_as_bytes a = .ok (a.pitch.floatVal.bytes
        ++ (a.yaw.floatVal.bytes ++ a.roll.floatVal.bytes)) ∧
      ∀ r, Angle.parse_as_bytes (a.pitch.floatVal.bytes
        ++ (a.yaw.floatVal.bytes ++ (a.roll.floatVal.bytes ++ r))) = .ok (a, r) := by
  obtain ⟨hp, hy, hr'⟩ := h
  obtain ⟨p, y, ro⟩ := a
  simp only at hp hy hr'
  rw [hp, hy, hr']
  exact ⟨rfl, fun r => rfl⟩

theorem texture_rt (t : Texture) (h : WFTexture t) :
    ∃ w, Texture.write t = .ok w ∧ ∀ r, Texture.parse (w ++ r) = .ok (t, r) := by
  obtain ⟨h1, h2, h3⟩ := h
  by_cases h0 : t.layer_ID = 0
  · refine ⟨[⟨0, by omega⟩], ?_, fun r => ?_⟩
    · simp [Texture.write, h0, write_byte]
    · have ht : t = ⟨0, []⟩ := by
        cases t
        simp_all
      simp [Texture.parse, read_byte, ht]
  · have hb : write_byte (t.layer_ID : ℤ) "texture layer ID"
        = .ok [⟨t.layer_ID, h1⟩] := by
      rw [write_byte, dif_pos ⟨by omega, by exact_mod_cast h1⟩]
      simp
    refine ⟨⟨t.layer_ID, h1⟩ :: strEnc t.filename, ?_, fun r => ?_⟩
    · simp only [Texture.write, h0, if_false, hb, ok_bind,
        write_string_ok t.filename (h3 h0) _, List.singleton_append]
    · simp only [List.cons_append, Texture.parse, read_byte, ok_bind, h0, if_false,
        read_string_strEnc t.filename (h3 h0) r _]

theorem color_bytes_rt (c : Color) (h : ColorBytesOK c) :
    ∃ w, Color.write_as_bytes c = .ok w ∧
      ∀ r, Color.parse_as_bytes (w ++ r) = .ok (c, r) := by
  obtain ⟨hr0, hr1, hg0, hg1, hb0, hb1⟩ := h
  refine ⟨[⟨c.r.toNat, by omega⟩, ⟨c.g.toNat, by omega⟩, ⟨c.b.toNat, by omega⟩],
    ?_, fun r => ?_⟩
  · rw [Color.write_as_bytes, write_byte, dif_pos ⟨hr0, hr1⟩, ok_bind,
      write_byte, dif_pos ⟨hg0, hg1⟩, ok_bind, write_byte, dif_pos ⟨hb0, hb1⟩, ok_bind]
    rfl
  · simp only [List.cons_append, List.nil_append, Color.parse_as_bytes, read_byte,
      ok_bind]
    rw [show ((c.r.toNat : ℕ) : ℤ) = c.r from Int.toNat_of_nonneg hr0,
      show ((c.g.toNat : ℕ) : ℤ) = c.g from Int.toNat_of_nonneg hg0,
      show ((c.b.toNat : ℕ) : ℤ) = c.b from Int.toNat_of_nonneg hb0]

/-- Characters of a three-token space-joined rendering. -/
theorem three_token_lt128 (t1 t2 t3 : List Nat)
    (h1 : ∀ x ∈ t1, x < 128) (h2 : ∀ x ∈ t2, x < 128) (h3 : ∀ x ∈ t3, x < 128) :
    ∀ x ∈ t1 ++ 32 :: t2 ++ 32 :: t3, x < 128 := by
  intro x hx
  rcases List.mem_append.mp hx with h | h
  · rcases List.mem_append.mp h with h | h
    · exact h1 x h
    · rcases List.mem_cons.mp h with h | h
      · omega
      · exact h2 x h
  · rcases List.mem_cons.mp h with h | h
    · omega
    · exact h3 x h

/-- Every code of a rendered color string is 7-bit. -/
theorem colorString_lt128 (c : Color) : ∀ x ∈ colorString c, x < 128 :=
  three_token_lt128 _ _ _ (fmtInt_lt128 _) (fmtInt_lt128 _) (fmtInt_lt128 _)

theorem color_string_rt (c : Color) (h : ColorStrOK c) :
    Color.write_as_string c = .ok (strEnc (colorString c)) ∧
      ∀ r, Color.parse_as_string (strEnc (colorString c) ++ r) = .ok (c, r) := by
  have hstr : StrOK (colorString c) := ⟨h, colorString_lt128 c⟩
  refine ⟨write_string_ok _ hstr _, fun r => ?_⟩
  simp only [Color.parse_as_string, read_string_strEnc _ hstr r _, ok_bind]
  have hsplit : pySplit (colorString c) = [fmtInt c.r, fmtInt c.g, fmtInt c.b] := by
    have := pySplit_three (fmtInt c.r) (fmtInt c.g) (fmtInt c.b)
      (fmtInt_ne_nil _) (fmtInt_ne_nil _) (fmtInt_ne_nil _)
      (fmtInt_not_space _) (fmtInt_not_space _) (fmtInt_not_space _)
    simpa [colorString, List.append_assoc, List.cons_append] using this
  rw [hsplit, mapPyInt_three _ _ _ _ _ _ (pyInt_fmtInt c.r) (pyInt_fmtInt c.g)
    (pyInt_fmtInt c.b), ok_bind]

theorem angle_string_rt (a : Angle) (h : AngleStrOK a) :
    Angle.write_as_string a = .ok (strEnc (angleString a)) ∧
      ∀ r, Angle.parse_as_string (strEnc (angleString a) ++ r) = .ok (a, r) := by
  obtain ⟨⟨hp, hy, hr'⟩, hlen⟩ := h
  have h128 : ∀ x ∈ angleString a, x < 128 :=
    three_token_lt128 _ _ _ (fmtInt_lt128 _) (fmtInt_lt128 _) (fmtInt_lt128 _)
  have hstr : StrOK (angleString a) := ⟨hlen, h128⟩
  have hsplit : pySplit (angleString a)
      = [fmtInt a.pitch.intVal, fmtInt a.yaw.intVal, fmtInt a.roll.intVal] := by
    have := pySplit_three (fmtInt a.pitch.intVal) (fmtInt a.yaw.intVal)
      (fmtInt a.roll.intVal) (fmtInt_ne_nil _) (fmtInt_ne_nil _) (fmtInt_ne_nil _)
      (fmtInt_not_space _) (fmtInt_not_space _) (fmtInt_not_space _)
    simpa [angleString, List.append_assoc, List.cons_append] using this
  constructor
  · rw [Angle.write_as_string, hp, hy, hr']
    simp only [pyRoundNum, ok_bind]
    exact write_string_ok _ hstr _
  · intro r
    simp only [Angle.parse_as_string, read_string_strEnc _ hstr r _, ok_bind]
    rw [hsplit, mapPyInt_three _ _ _ _ _ _ (pyInt_fmtInt _) (pyInt_fmtInt _)
      (pyInt_fmtInt _), ok_bind]
    have he : a = ⟨.pint a.pitch.intVal, .pint a.yaw.intVal, .pint a.roll.intVal⟩ := by
      obtain ⟨p, y, ro⟩ := a
      simp only at hp hy hr' ⊢
      simp only [Angle.mk.injEq]
      exact ⟨hp, hy, hr'⟩
    exact congrArg Except.ok (congrArg (fun x => (x, r)) he.symm)

theorem triangle_rt (t : Triangle) (h : WFTriangle t) :
    ∃ w, Triangle.write t = .ok w ∧ ∀ r, Triangle.parse (w ++ r) = .ok (t, r) := by
  obtain ⟨h1, h2, h3⟩ := h
  refine ⟨u32Bytes t.index_1 ++ (u32Bytes t.index_2 ++ u32Bytes t.index_3),
    ?_, fun r => ?_⟩
  · rw [Triangle.write, write_integer_ok _ h1 _, ok_bind, write_integer_ok _ h2 _,
      ok_bind, write_integer_ok _ h3 _, ok_bind]
    simp [List.append_assoc]
  · simp only [Triangle.parse, List.append_assoc, read_integer_u32 t.index_1 h1,
      read_integer_u32 t.index_2 h2, read_integer_u32 t.index_3 h3, ok_bind]

theorem vertex_rt (v : Vertex) (h : WFVertex v) :
    ∃ w, Vertex.write v = .ok w ∧ ∀ r, Vertex.parse (w ++ r) = .ok (v, r) := by
  obtain ⟨wc, hwc, hpc⟩ := color_bytes_rt v.color h
  refine ⟨v.pos.x.bytes ++ (v.pos.z.bytes ++ v.pos.y.bytes)
    ++ (v.uv_1.u.bytes ++ v.uv_1.v.bytes) ++ (v.uv_2.u.bytes ++ v.uv_2.v.bytes)
    ++ wc, ?_, fun r => ?_⟩
  · rw [Vertex.write, coordinate3_write, ok_bind, uv_write, ok_bind, uv_write,
      ok_bind, hwc, ok_bind]
  · simp only [Vertex.parse, List.append_assoc, coordinate3_parse, ok_bind,
      uv_parse, hpc]

/-! ### Loop round-trips -/

theorem parseCount_writeList {α : Type} (wr : α → Except Err ByteStr)
    (pr : ByteStr → Except Err (α × ByteStr)) (l : List α)
    (H : ∀ x ∈ l, ∃ wx, wr x = .ok wx ∧ ∀ r, pr (wx ++ r) = .ok (x, r)) :
    ∃ w, writeList wr l = .ok w ∧
      ∀ acc r, parseCount l.length pr acc (w ++ r) = .ok (acc ++ l, r) := by
  induction l with
  | nil =>
    refine ⟨[], rfl, fun acc r => ?_⟩
    simp [parseCount]
  | cons x xs ih =>
    obtain ⟨wx, hwx, hpx⟩ := H x (List.mem_cons_self _ _)
    obtain ⟨ws, hws, hps⟩ := ih (fun y hy => H y (List.mem_cons_of_mem _ hy))
    refine ⟨wx ++ ws, ?_, fun acc r => ?_⟩
    · rw [writeList, hwx, ok_bind, hws, ok_bind]
    · rw [List.length_cons, List.append_assoc]
      show parseCount (xs.length + 1) pr acc (wx ++ (ws ++ r)) = _
      rw [parseCount, hpx (ws ++ r), ok_bind]
      show parseCount xs.length pr (acc ++ [x]) (ws ++ r) = _
      rw [hps (acc ++ [x]) r]
      simp

theorem parsePoints_writeList (l : List Point)
    (H : ∀ pt ∈ l, ∃ w, Point.write pt = .ok w ∧
      ∀ r, parseOnePoint (w ++ r) = .ok (some pt, r)) :
    ∃ w, writeList Point.write l = .ok w ∧
      ∀ acc r, parsePoints l.length acc (w ++ r) = .ok (acc ++ l, r) := by
  induction l with
  | nil =>
    refine ⟨[], rfl, fun acc r => ?_⟩
    simp [parsePoints]
  | cons x xs ih =>
    obtain ⟨wx, hwx, hpx⟩ := H x (List.mem_cons_self _ _)
    obtain ⟨ws, hws, hps⟩ := ih (fun y hy => H y (List.mem_cons_of_mem _ hy))
    refine ⟨wx ++ ws, ?_, fun acc r => ?_⟩
    · rw [writeList, hwx, ok_bind, hws, ok_bind]
    · rw [List.length_cons, List.append_assoc]
      show parsePoints (xs.length + 1) acc (wx ++ (ws ++ r)) = _
      rw [parsePoints, hpx (ws ++ r), ok_bind]
      show parsePoints xs.length (acc ++ [x]) (ws ++ r) = _
      rw [hps (acc ++ [x]) r]
      simp

theorem point_rt (pt : Point) (h : WFPoint pt) (hs : SizePoint pt) :
    ∃ w, Point.write pt = .ok w ∧ ∀ r, parseOnePoint (w ++ r) = .ok (some pt, r) := by
  cases pt with
  | screen v =>
    have hp : StrOK v.path := h
    refine ⟨strEnc (codes "screen")
      ++ (v.pos.x.bytes ++ (v.pos.z.bytes ++ v.pos.y.bytes)) ++ strEnc v.path,
      ?_, fun r => ?_⟩
    · simp only [Point.write, Screen.write,
        write_string_ok (codes "screen") (by decide), ok_bind, coordinate3_write,
        write_string_ok v.path hp]
    · simp only [List.append_assoc, parseOnePoint,
        read_string_strEnc (codes "screen") (by decide), ok_bind, if_pos rfl, if_true,
        Screen.parse, coordinate3_parse, read_string_strEnc v.path hp]
  | waypoint v =>
    refine ⟨strEnc (codes "waypoint")
      ++ (v.pos.x.bytes ++ (v.pos.z.bytes ++ v.pos.y.bytes)), ?_, fun r => ?_⟩
    · simp only [Point.write, Waypoint.write,
        write_string_ok (codes "waypoint") (by decide), ok_bind, coordinate3_write]
    · simp only [List.append_assoc, parseOnePoint,
        read_string_strEnc (codes "waypoint") (by decide), ok_bind,
        if_neg (by decide : ¬ codes "waypoint" = codes "screen"), if_pos rfl, if_true,
        Waypoint.parse, coordinate3_parse]
  | light v =>
    obtain ⟨hcw, hcp⟩ := color_string_rt v.color hs
    refine ⟨strEnc (codes "light")
      ++ (v.pos.x.bytes ++ (v.pos.z.bytes ++ v.pos.y.bytes)) ++ v.range.bytes
      ++ strEnc (colorString v.color) ++ v.intensity.bytes, ?_, fun r => ?_⟩
    · simp only [Point.write, Light.write,
        write_string_ok (codes "light") (by decide), ok_bind, coordinate3_write,
        write_float, hcw]
    · simp only [List.append_assoc, parseOnePoint,
        read_string_strEnc (codes "light") (by decide), ok_bind,
        if_neg (by decide : ¬ codes "light" = codes "screen"),
        if_neg (by decide : ¬ codes "light" = codes "waypoint"), if_pos rfl, if_true,
        Light.parse, coordinate3_parse, read_float_bytes, hcp]
  | spotlight v =>
    obtain ⟨hwf1, hwf2, hwf3⟩ := h
    obtain ⟨hsz1, hsz2⟩ := hs
    obtain ⟨hcw, hcp⟩ := color_string_rt v.color hsz1
    obtain ⟨haw, hap⟩ := angle_string_rt v.angle ⟨hwf1, hsz2⟩
    refine ⟨strEnc (codes "spotlight")
      ++ (v.pos.x.bytes ++ (v.pos.z.bytes ++ v.pos.y.bytes)) ++ v.range.bytes
      ++ strEnc (colorString v.color) ++ v.intensity.bytes
      ++ strEnc (angleString v.angle) ++ u32Bytes v.inner_angle
      ++ u32Bytes v.outer_angle, ?_, fun r => ?_⟩
    · simp only [Point.write, Spotlight.write,
        write_string_ok (codes "spotlight") (by decide), ok_bind, coordinate3_write,
        write_float, hcw, haw, write_integer_ok v.inner_angle hwf2,
        write_integer_ok v.outer_angle hwf3]
    · simp only [List.append_assoc, parseOnePoint,
        read_string_strEnc (codes "spotlight") (by decide), ok_bind,
        if_neg (by decide : ¬ codes "spotlight" = codes "screen"),
        if_neg (by decide : ¬ codes "spotlight" = codes "waypoint"),
        if_neg (by decide : ¬ codes "spotlight" = codes "light"), if_pos rfl, if_true,
        Spotlight.parse, coordinate3_parse, read_float_bytes, hcp, hap,
        read_integer_u32 v.inner_angle hwf2, read_integer_u32 v.outer_angle hwf3]
  | soundemitter v =>
    refine ⟨strEnc (codes "soundemitter")
      ++ (v.pos.x.bytes ++ (v.pos.z.bytes ++ v.pos.y.bytes)) ++ u32Bytes v.sound
      ++ v.range.bytes, ?_, fun r => ?_⟩
    · simp only [Point.write, SoundEmitter.write,
        write_string_ok (codes "soundemitter") (by decide), ok_bind,
        coordinate3_write, write_float, write_integer_ok v.sound h]
    · simp only [List.append_assoc, parseOnePoint,
        read_string_strEnc (codes "soundemitter") (by decide), ok_bind,
        if_neg (by decide : ¬ codes "soundemitter" = codes "screen"),
        if_neg (by decide : ¬ codes "soundemitter" = codes "waypoint"),
        if_neg (by decide : ¬ codes "soundemitter" = codes "light"),
        if_neg (by decide : ¬ codes "soundemitter" = codes "spotlight"), if_pos rfl, if_true,
        SoundEmitter.parse, coordinate3_parse, read_float_bytes,
        read_integer_u32 v.sound h]
  | playerstart v =>
    obtain ⟨haw, hap⟩ := angle_string_rt v.angle ⟨h, hs⟩
    refine ⟨strEnc (codes "playerstart")
      ++ (v.pos.x.bytes ++ (v.pos.z.bytes ++ v.pos.y.bytes))
      ++ strEnc (angleString v.angle), ?_, fun r => ?_⟩
    · simp only [Point.write, PlayerStart.write,
        write_string_ok (codes "playerstart") (by decide), ok_bind,
        coordinate3_write, haw]
    · simp only [List.append_assoc, parseOnePoint,
        read_string_strEnc (codes "playerstart") (by decide), ok_bind,
        if_neg (by decide : ¬ codes "playerstart" = codes "screen"),
        if_neg (by decide : ¬ codes "playerstart" = codes "waypoint"),
        if_neg (by decide : ¬ codes "playerstart" = codes "light"),
        if_neg (by decide : ¬ codes "playerstart" = codes "spotlight"),
        if_neg (by decide : ¬ codes "playerstart" = codes "soundemitter"), if_pos rfl, if_true,
        PlayerStart.parse, coordinate3_parse, hap]
  | model v =>
    obtain ⟨hpa, hfl⟩ := h
    obtain ⟨haw, hap⟩ := angle_bytes_rt v.angle hfl
    refine ⟨strEnc (codes "model") ++ strEnc v.path
      ++ (v.pos.x.bytes ++ (v.pos.z.bytes ++ v.pos.y.bytes))
      ++ (v.angle.pitch.floatVal.bytes
        ++ (v.angle.yaw.floatVal.bytes ++ v.angle.roll.floatVal.bytes))
      ++ (v.scale.x_scale.bytes ++ (v.scale.y_scale.bytes ++ v.scale.z_scale.bytes)),
      ?_, fun r => ?_⟩
    · simp only [Point.write, Model.write,
        write_string_ok (codes "model") (by decide), ok_bind,
        write_string_ok v.path hpa, coordinate3_write, haw, scale_write]
    · simp only [List.append_assoc, parseOnePoint,
        read_string_strEnc (codes "model") (by decide), ok_bind,
        if_neg (by decide : ¬ codes "model" = codes "screen"),
        if_neg (by decide : ¬ codes "model" = codes "waypoint"),
        if_neg (by decide : ¬ codes "model" = codes "light"),
        if_neg (by decide : ¬ codes "model" = codes "spotlight"),
        if_neg (by decide : ¬ codes "model" = codes "soundemitter"),
        if_neg (by decide : ¬ codes "model" = codes "playerstart"), if_pos rfl, if_true,
        Model.parse, read_string_strEnc v.path hpa, coordinate3_parse, hap,
        scale_parse]

theorem object_rt (o : Object) (h : WFObject o) :
    ∃ w, Object.write o = .ok w ∧ ∀ r, Object.parse Object.init (w ++ r) = .ok (o, r) := by
  obtain ⟨h1, h2, h3, h4, h5, h6⟩ := h
  have hpad : padTextures o.textures = o.textures := by
    unfold padTextures padGo
    rw [if_neg (by omega)]
  obtain ⟨wt, hwt, hpt⟩ := parseCount_writeList Texture.write Texture.parse o.textures
    (fun t ht => texture_rt t (h2 t ht))
  obtain ⟨wv, hwv, hpv⟩ := parseCount_writeList Vertex.write Vertex.parse o.vertices
    (fun v hv => vertex_rt v (h4 v hv))
  obtain ⟨wtr, hwtr, hptr⟩ := parseCount_writeList Triangle.write Triangle.parse
    o.triangles (fun t ht => triangle_rt t (h6 t ht))
  refine ⟨wt ++ u32Bytes o.vertices.length ++ wv ++ u32Bytes o.triangles.length ++ wtr,
    ?_, fun r => ?_⟩
  · rw [Object.write, hpad, hwt, ok_bind, write_integer_ok _ h3 _, ok_bind, hwv,
      ok_bind, write_integer_ok _ h5 _, ok_bind, hwtr, ok_bind]
  · simp only [Object.parse, Object.init, List.append_assoc]
    rw [show (2 : ℕ) = o.textures.length from h1.symm]
    simp only [hpt, ok_bind, read_integer_u32 o.vertices.length h3,
      read_integer_u32 o.triangles.length h5, hpv, hptr, List.nil_append]

theorem collision_rt (c : Collision) (h : WFCollision c) :
    ∃ w, Collision.write c = .ok w ∧
      ∀ r, Collision.parse Collision.init (w ++ r) = .ok (c, r) := by
  obtain ⟨h1, h2, h3⟩ := h
  obtain ⟨wv, hwv, hpv⟩ := parseCount_writeList Coordinate3.write Coordinate3.parse
    c.vertices (fun v _ => ⟨_, coordinate3_write v,
      fun r => by simp only [List.append_assoc, coordinate3_parse]⟩)
  obtain ⟨wtr, hwtr, hptr⟩ := parseCount_writeList Triangle.write Triangle.parse
    c.triangles (fun t ht => triangle_rt t (h3 t ht))
  refine ⟨u32Bytes c.vertices.length ++ wv ++ u32Bytes c.triangles.length ++ wtr,
    ?_, fun r => ?_⟩
  · rw [Collision.write, write_integer_ok _ h1 _, ok_bind, hwv, ok_bind,
      write_integer_ok _ h2 _, ok_bind, hwtr, ok_bind]
  · simp only [Collision.parse, Collision.init, List.append_assoc,
      read_integer_u32 c.vertices.length h1, ok_bind, hpv,
      read_integer_u32 c.triangles.length h2, hptr, List.nil_append]

theorem triggerbox_rt (t : TriggerBox) (h : WFTrigger t) :
    ∃ w, TriggerBox.write t = .ok w ∧
      ∀ r, TriggerBox.parse TriggerBox.init (w ++ r) = .ok (t, r) := by
  obtain ⟨h1, h2, h3⟩ := h
  obtain ⟨wcs, hwcs, hpcs⟩ := parseCount_writeList Collision.write
    (Collision.parse Collision.init) t.collisions (fun c hc => collision_rt c (h2 c hc))
  refine ⟨u32Bytes t.collisions.length ++ wcs ++ strEnc t.name, ?_, fun r => ?_⟩
  · rw [TriggerBox.write, write_integer_ok _ h1 _, ok_bind, hwcs, ok_bind,
      write_string_ok _ h3 _, ok_bind]
  · simp only [TriggerBox.parse, TriggerBox.init, List.append_assoc,
      read_integer_u32 t.collisions.length h1, ok_bind, hpcs,
      read_string_strEnc t.name h3, List.nil_append]

theorem doc_rt (d : RoomMesh) (hwf : WFDoc d) (hsz : SizeDoc d)
    (htr : d.signature = codes "RoomMesh.HasTriggerBox" → d.triggers ≠ []) :
    ∃ w, RoomMesh.write d = .ok w ∧
      RoomMesh.parse RoomMesh.init w = .ok (d, strEnc (codes "EOF")) := by
  obtain ⟨hsig, hsig1, ho1, ho2, hc1, hc2, ht1, ht2, hp1, hp2⟩ := hwf
  have hsOK : StrOK d.signature := by
    rcases hsig with h | h <;> rw [h] <;> decide
  obtain ⟨wo, hwo, hpo⟩ := parseCount_writeList Object.write (Object.parse Object.init)
    d.objects (fun o ho => object_rt o (ho2 o ho))
  obtain ⟨wc, hwc, hpc⟩ := parseCount_writeList Collision.write
    (Collision.parse Collision.init) d.collisions (fun c hc => collision_rt c (hc2 c hc))
  obtain ⟨wp, hwp, hpp⟩ := parsePoints_writeList d.points
    (fun pt hp => point_rt pt (hp2 pt hp) (hsz pt hp))
  obtain ⟨wt, hwt, hptSec⟩ : ∃ wt, triggerSectionW d.triggers = .ok wt ∧
      ∀ r, parseTriggerSection d.signature [] (wt ++ r) = .ok (d.triggers, r) := by
    rcases hsig with hA | hB
    · have he : d.triggers = [] := hsig1 hA
      refine ⟨[], ?_, fun r => ?_⟩
      · simp [triggerSectionW, he]
      · rw [parseTriggerSection, if_neg (by rw [hA]; decide)]
        simp [he]
    · have hne := htr hB
      obtain ⟨wtb, hwtb, hptb⟩ := parseCount_writeList TriggerBox.write
        (TriggerBox.parse TriggerBox.init) d.triggers
        (fun t ht => triggerbox_rt t (ht2 t ht))
      refine ⟨u32Bytes d.triggers.length ++ wtb, ?_, fun r => ?_⟩
      · rw [triggerSectionW, if_pos (List.length_pos.mpr hne),
          write_integer_ok _ ht1 _, ok_bind, hwtb, ok_bind]
      · rw [parseTriggerSection, if_pos hB, List.append_assoc,
          read_integer_u32 _ ht1 _ _, ok_bind]
        show parseCount d.triggers.length (TriggerBox.parse TriggerBox.init) []
          (wtb ++ r) = _
        rw [hptb [] r]
        simp
  refine ⟨strEnc d.signature ++ u32Bytes d.objects.length ++ wo
    ++ u32Bytes d.collisions.length ++ wc ++ wt ++ u32Bytes d.points.length ++ wp
    ++ strEnc (codes "EOF"), ?_, ?_⟩
  · rw [RoomMesh.write, write_string_ok _ hsOK _, ok_bind,
      write_integer_ok _ ho1 _, ok_bind, hwo, ok_bind, write_integer_ok _ hc1 _,
      ok_bind, hwc, ok_bind, hwt, ok_bind, write_integer_ok _ hp1 _, ok_bind, hwp,
      ok_bind, write_string_ok _ (by decide) _, ok_bind]
  · simp only [RoomMesh.parse, RoomMesh.parseBody, RoomMesh.init, List.append_assoc,
      read_string_strEnc d.signature hsOK, ok_bind, if_pos hsig,
      read_integer_u32 d.objects.length ho1, hpo,
      read_integer_u32 d.collisions.length hc1, hpc, hptSec,
      read_integer_u32 d.points.length hp1, hpp, List.nil_append]

/-! ### Parse results are well-formed -/

theorem bind_ok_iff {α β : Type} (e : Except Err α) (f : α → Except Err β) (b : β) :
    (e >>= f) = .ok b ↔ ∃ a, e = .ok a ∧ f a = .ok b := by
  cases e with
  | ok a => simp
  | error err => simp [error_bind]

theorem read_byte_lt (ctx : String) (s : ByteStr) (v : Nat) (s' : ByteStr)
    (h : read_byte ctx s = .ok (v, s')) : v < 256 := by
  match s with
  | [] => simp [read_byte] at h
  | b :: rest =>
    simp only [read_byte, Except.ok.injEq, Prod.mk.injEq] at h
    obtain ⟨hv, _⟩ := h
    omega

theorem read_integer_lt (ctx : String) (s : ByteStr) (v : Nat) (s' : ByteStr)
    (h : read_integer ctx s = .ok (v, s')) : v < 4294967296 := by
  match s with
  | [] => simp [read_integer] at h
  | [_] => simp [read_integer] at h
  | [_, _] => simp [read_integer] at h
  | [_, _, _] => simp [read_integer] at h
  | b0 :: b1 :: b2 :: b3 :: rest =>
    simp only [read_integer, Except.ok.injEq, Prod.mk.injEq] at h
    obtain ⟨hv, _⟩ := h
    have i0 := b0.isLt
    have i1 := b1.isLt
    have i2 := b2.isLt
    have i3 := b3.isLt
    omega

theorem read_string_wf (ctx : String) (s : ByteStr) (str : List Nat) (s' : ByteStr)
    (h : read_string ctx s = .ok (str, s')) : StrOK str := by
  simp only [read_string, bind_ok_iff] at h
  obtain ⟨⟨n, s1⟩, h1, h2⟩ := h
  have hn := read_integer_lt _ _ _ _ h1
  by_cases hle : n ≤ s1.length
  · rw [if_pos hle] at h2
    by_cases hall : (s1.take n).all (fun b => b.val < 128)
    · rw [if_pos hall] at h2
      simp only [Except.ok.injEq, Prod.mk.injEq] at h2
      obtain ⟨hstr, _⟩ := h2
      refine ⟨?_, ?_⟩
      · rw [← hstr, List.length_map, List.length_take]
        omega
      · intro c hc
        rw [← hstr] at hc
        obtain ⟨b, hb, rfl⟩ := List.mem_map.mp hc
        have := List.all_eq_true.mp hall b hb
        simpa using this
    · rw [if_neg hall] at h2
      exact absurd h2 (by simp)
  · rw [if_neg hle] at h2
    exact absurd h2 (by simp)

theorem texture_parse_wf (s : ByteStr) (t : Texture) (s' : ByteStr)
    (h : Texture.parse s = .ok (t, s')) : WFTexture t := by
  simp only [Texture.parse, bind_ok_iff] at h
  obtain ⟨⟨layer, s1⟩, h1, h2⟩ := h
  have hlt := read_byte_lt _ _ _ _ h1
  by_cases h0 : layer = 0
  · rw [if_pos h0] at h2
    simp only [Except.ok.injEq, Prod.mk.injEq] at h2
    obtain ⟨ht, _⟩ := h2
    rw [← ht]
    exact ⟨hlt, fun _ => rfl, fun hne => absurd h0 hne⟩
  · rw [if_neg h0, bind_ok_iff] at h2
    obtain ⟨⟨fn, s2⟩, h3, h4⟩ := h2
    have hfn := read_string_wf _ _ _ _ h3
    simp only [Except.ok.injEq, Prod.mk.injEq] at h4
    obtain ⟨ht, _⟩ := h4
    rw [← ht]
    exact ⟨hlt, fun hz => absurd hz h0, fun _ => hfn⟩

theorem color_bytes_wf (s : ByteStr) (c : Color) (s' : ByteStr)
    (h : Color.parse_as_bytes s = .ok (c, s')) : ColorBytesOK c := by
  simp only [Color.parse_as_bytes, bind_ok_iff] at h
  obtain ⟨⟨rv, s1⟩, h1, ⟨gv, s2⟩, h2, ⟨bv, s3⟩, h3, h4⟩ := h
  have hr := read_byte_lt _ _ _ _ h1
  have hg := read_byte_lt _ _ _ _ h2
  have hb := read_byte_lt _ _ _ _ h3
  simp only [Except.ok.injEq, Prod.mk.injEq] at h4
  obtain ⟨hc, _⟩ := h4
  rw [← hc]
  refine ⟨?_, ?_, ?_, ?_, ?_, ?_⟩ <;> dsimp only <;> omega

theorem angle_string_wf (s : ByteStr) (a : Angle) (s' : ByteStr)
    (h : Angle.parse_as_string s = .ok (a, s')) : AngleIntOK a := by
  simp only [Angle.parse_as_string, bind_ok_iff] at h
  obtain ⟨⟨str, s1⟩, h1, vals, h2, h3⟩ := h
  match vals with
  | [] => simp at h3
  | [_] => simp at h3
  | [_, _] => simp at h3
  | _ :: _ :: _ :: _ :: _ => simp at h3
  | [p, y, ro] =>
    simp only [Except.ok.injEq, Prod.mk.injEq] at h3
    obtain ⟨ha, _⟩ := h3
    rw [← ha]
    exact ⟨rfl, rfl, rfl⟩

theorem angle_bytes_wf (s : ByteStr) (a : Angle) (s' : ByteStr)
    (h : Angle.parse_as_bytes s = .ok (a, s')) : AngleFloatOK a := by
  simp only [Angle.parse_as_bytes, bind_ok_iff] at h
  obtain ⟨⟨pv, s1⟩, h1, ⟨yv, s2⟩, h2, ⟨rv, s3⟩, h3, h4⟩ := h
  simp only [Except.ok.injEq, Prod.mk.injEq] at h4
  obtain ⟨ha, _⟩ := h4
  rw [← ha]
  exact ⟨rfl, rfl, rfl⟩

theorem vertex_parse_wf (s : ByteStr) (v : Vertex) (s' : ByteStr)
    (h : Vertex.parse s = .ok (v, s')) : WFVertex v := by
  simp only [Vertex.parse, bind_ok_iff] at h
  obtain ⟨⟨p, s1⟩, h1, ⟨u1, s2⟩, h2, ⟨u2, s3⟩, h3, ⟨c, s4⟩, h4, h5⟩ := h
  have hc := color_bytes_wf _ _ _ h4
  simp only [Except.ok.injEq, Prod.mk.injEq] at h5
  obtain ⟨hv, _⟩ := h5
  rw [← hv]
  exact hc

theorem triangle_parse_wf (s : ByteStr) (t : Triangle) (s' : ByteStr)
    (h : Triangle.parse s = .ok (t, s')) : WFTriangle t := by
  simp only [Triangle.parse, bind_ok_iff] at h
  obtain ⟨⟨i1, s1⟩, h1, ⟨i2, s2⟩, h2, ⟨i3, s3⟩, h3, h4⟩ := h
  have l1 := read_integer_lt _ _ _ _ h1
  have l2 := read_integer_lt _ _ _ _ h2
  have l3 := read_integer_lt _ _ _ _ h3
  simp only [Except.ok.injEq, Prod.mk.injEq] at h4
  obtain ⟨ht, _⟩ := h4
  rw [← ht]
  exact ⟨l1, l2, l3⟩

theorem parseCount_ok {α : Type} (pr : ByteStr → Except Err (α × ByteStr))
    (P : α → Prop) (H : ∀ s x s', pr s = .ok (x, s') → P x) :
    ∀ (n : Nat) (acc : List α) (s : ByteStr) (l : List α) (s' : ByteStr),
      parseCount n pr acc s = .ok (l, s') →
      ∃ new, l = acc ++ new ∧ new.length = n ∧ ∀ x ∈ new, P x := by
  intro n
  induction n with
  | zero =>
    intro acc s l s' h
    rw [parseCount] at h
    simp only [Except.ok.injEq, Prod.mk.injEq] at h
    obtain ⟨h1, _⟩ := h
    exact ⟨[], by simp [h1], rfl, by simp⟩
  | succ m ih =>
    intro acc s l s' h
    rw [parseCount] at h
    rw [bind_ok_iff] at h
    obtain ⟨⟨x, s1⟩, h1, h2⟩ := h
    have h2' : parseCount m pr (acc ++ [x]) s1 = .ok (l, s') := h2
    obtain ⟨new, hl, hlen, hP⟩ := ih (acc ++ [x]) s1 l s' h2'
    refine ⟨x :: new, by rw [hl]; simp, by simp [hlen], ?_⟩
    intro y hy
    rcases List.mem_cons.mp hy with rfl | hy
    · exact H _ _ _ h1
    · exact hP y hy

theorem screen_parse_wf (s : ByteStr) (v : Screen) (s' : ByteStr)
    (h : Screen.parse s = .ok (v, s')) : StrOK v.path := by
  simp only [Screen.parse, bind_ok_iff] at h
  obtain ⟨⟨p, s1⟩, h1, ⟨pa, s2⟩, h2, h3⟩ := h
  have hp := read_string_wf _ _ _ _ h2
  simp only [Except.ok.injEq, Prod.mk.injEq] at h3
  obtain ⟨hv, _⟩ := h3
  rw [← hv]
  exact hp

theorem spotlight_parse_wf (s : ByteStr) (v : Spotlight) (s' : ByteStr)
    (h : Spotlight.parse s = .ok (v, s')) :
    AngleIntOK v.angle ∧ v.inner_angle < 4294967296 ∧ v.outer_angle < 4294967296 := by
  simp only [Spotlight.parse, bind_ok_iff] at h
  obtain ⟨⟨p, s1⟩, h1, ⟨rg, s2⟩, h2, ⟨c, s3⟩, h3, ⟨it, s4⟩, h4, ⟨an, s5⟩, h5,
    ⟨ia, s6⟩, h6, ⟨oa, s7⟩, h7, h8⟩ := h
  have hang := angle_string_wf _ _ _ h5
  have hi := read_integer_lt _ _ _ _ h6
  have ho := read_integer_lt _ _ _ _ h7
  simp only [Except.ok.injEq, Prod.mk.injEq] at h8
  obtain ⟨hv, _⟩ := h8
  rw [← hv]
  exact ⟨hang, hi, ho⟩

theorem soundemitter_parse_wf (s : ByteStr) (v : SoundEmitter) (s' : ByteStr)
    (h : SoundEmitter.parse s = .ok (v, s')) : v.sound < 4294967296 := by
  simp only [SoundEmitter.parse, bind_ok_iff] at h
  obtain ⟨⟨p, s1⟩, h1, ⟨sd, s2⟩, h2, ⟨rg, s3⟩, h3, h4⟩ := h
  have hs := read_integer_lt _ _ _ _ h2
  simp only [Except.ok.injEq, Prod.mk.injEq] at h4
  obtain ⟨hv, _⟩ := h4
  rw [← hv]
  exact hs

theorem playerstart_parse_wf (s : ByteStr) (v : PlayerStart) (s' : ByteStr)
    (h : PlayerStart.parse s = .ok (v, s')) : AngleIntOK v.angle := by
  simp only [PlayerStart.parse, bind_ok_iff] at h
  obtain ⟨⟨p, s1⟩, h1, ⟨an, s2⟩, h2, h3⟩ := h
  have ha := angle_string_wf _ _ _ h2
  simp only [Except.ok.injEq, Prod.mk.injEq] at h3
  obtain ⟨hv, _⟩ := h3
  rw [← hv]
  exact ha

theorem model_parse_wf (s : ByteStr) (v : Model) (s' : ByteStr)
    (h : Model.parse s = .ok (v, s')) : StrOK v.path ∧ AngleFloatOK v.angle := by
  simp only [Model.parse, bind_ok_iff] at h
  obtain ⟨⟨pa, s1⟩, h1, ⟨p, s2⟩, h2, ⟨an, s3⟩, h3, ⟨sc, s4⟩, h4, h5⟩ := h
  have hp := read_string_wf _ _ _ _ h1
  have ha := angle_bytes_wf _ _ _ h3
  simp only [Except.ok.injEq, Prod.mk.injEq] at h5
  obtain ⟨hv, _⟩ := h5
  rw [← hv]
  exact ⟨hp, ha⟩

theorem parseOnePoint_wf (s : ByteStr) (pt : Point) (s1 : ByteStr)
    (h : parseOnePoint s = .ok (some pt, s1)) : WFPoint pt := by
  simp only [parseOnePoint, bind_ok_iff] at h
  obtain ⟨⟨cname, s2⟩, hcn, h2⟩ := h
  split_ifs at h2
  · rw [bind_ok_iff] at h2
    obtain ⟨⟨v, s3⟩, hv, he⟩ := h2
    simp only [Except.ok.injEq, Prod.mk.injEq, Option.some.injEq] at he
    obtain ⟨hpt, _⟩ := he
    rw [← hpt]
    exact screen_parse_wf _ _ _ hv
  · rw [bind_ok_iff] at h2
    obtain ⟨⟨v, s3⟩, hv, he⟩ := h2
    simp only [Except.ok.injEq, Prod.mk.injEq, Option.some.injEq] at he
    obtain ⟨hpt, _⟩ := he
    rw [← hpt]
    trivial
  · rw [bind_ok_iff] at h2
    obtain ⟨⟨v, s3⟩, hv, he⟩ := h2
    simp only [Except.ok.injEq, Prod.mk.injEq, Option.some.injEq] at he
    obtain ⟨hpt, _⟩ := he
    rw [← hpt]
    trivial
  · rw [bind_ok_iff] at h2
    obtain ⟨⟨v, s3⟩, hv, he⟩ := h2
    simp only [Except.ok.injEq, Prod.mk.injEq, Option.some.injEq] at he
    obtain ⟨hpt, _⟩ := he
    rw [← hpt]
    exact spotlight_parse_wf _ _ _ hv
  · rw [bind_ok_iff] at h2
    obtain ⟨⟨v, s3⟩, hv, he⟩ := h2
    simp only [Except.ok.injEq, Prod.mk.injEq, Option.some.injEq] at he
    obtain ⟨hpt, _⟩ := he
    rw [← hpt]
    exact soundemitter_parse_wf _ _ _ hv
  · rw [bind_ok_iff] at h2
    obtain ⟨⟨v, s3⟩, hv, he⟩ := h2
    simp only [Except.ok.injEq, Prod.mk.injEq, Option.some.injEq] at he
    obtain ⟨hpt, _⟩ := he
    rw [← hpt]
    exact playerstart_parse_wf _ _ _ hv
  · rw [bind_ok_iff] at h2
    obtain ⟨⟨v, s3⟩, hv, he⟩ := h2
    simp only [Except.ok.injEq, Prod.mk.injEq, Option.some.injEq] at he
    obtain ⟨hpt, _⟩ := he
    rw [← hpt]
    exact model_parse_wf _ _ _ hv
  · simp at h2

theorem parsePoints_ok :
    ∀ (n : Nat) (acc : List Point) (s : ByteStr) (l : List Point) (s' : ByteStr),
      parsePoints n acc s = .ok (l, s') →
      ∃ new, l = acc ++ new ∧ ∀ pt ∈ new, WFPoint pt := by
  intro n
  induction n with
  | zero =>
    intro acc s l s' h
    rw [parsePoints] at h
    simp only [Except.ok.injEq, Prod.mk.injEq] at h
    obtain ⟨h1, _⟩ := h
    exact ⟨[], by simp [h1], by simp⟩
  | succ m ih =>
    intro acc s l s' h
    rw [parsePoints] at h
    rw [bind_ok_iff] at h
    obtain ⟨⟨opt, s1⟩, h1, h2⟩ := h
    cases opt with
    | some pt =>
      have h2' : parsePoints m (acc ++ [pt]) s1 = .ok (l, s') := h2
      obtain ⟨new, hl, hP⟩ := ih (acc ++ [pt]) s1 l s' h2'
      refine ⟨pt :: new, by rw [hl]; simp, ?_⟩
      intro y hy
      rcases List.mem_cons.mp hy with rfl | hy
      · exact parseOnePoint_wf _ _ _ h1
      · exact hP y hy
    | none =>
      have h2' : parsePoints m acc s1 = .ok (l, s') := h2
      exact ih acc s1 l s' h2'

theorem object_parse_wf (s : ByteStr) (o : Object) (s' : ByteStr)
    (h : Object.parse Object.init s = .ok (o, s')) : WFObject o := by
  simp only [Object.parse, Object.init, bind_ok_iff] at h
  obtain ⟨⟨ts, s1⟩, h1, ⟨vc, s2⟩, h2, ⟨vs, s3⟩, h3, ⟨tc, s4⟩, h4, ⟨tris, s5⟩, h5,
    h6⟩ := h
  obtain ⟨tsn, htseq, htslen, htsP⟩ :=
    parseCount_ok Texture.parse WFTexture texture_parse_wf 2 [] s ts s1 h1
  have hvc := read_integer_lt _ _ _ _ h2
  obtain ⟨vsn, hvseq, hvslen, hvsP⟩ :=
    parseCount_ok Vertex.parse WFVertex vertex_parse_wf vc [] s2 vs s3 h3
  have htc := read_integer_lt _ _ _ _ h4
  obtain ⟨trn, htreq, htrlen, htrP⟩ :=
    parseCount_ok Triangle.parse WFTriangle triangle_parse_wf tc [] s4 tris s5 h5
  simp only [Except.ok.injEq, Prod.mk.injEq] at h6
  obtain ⟨ho, _⟩ := h6
  rw [← ho]
  simp only [List.nil_append] at htseq hvseq htreq
  subst htseq hvseq htreq
  dsimp only [WFObject]
  exact ⟨by simpa using htslen, by simpa using htsP, by omega,
    by simpa using hvsP, by omega, by simpa using htrP⟩

theorem collision_parse_wf (s : ByteStr) (c : Collision) (s' : ByteStr)
    (h : Collision.parse Collision.init s = .ok (c, s')) : WFCollision c := by
  simp only [Collision.parse, Collision.init, bind_ok_iff] at h
  obtain ⟨⟨vc, s1⟩, h1, ⟨vs, s2⟩, h2, ⟨tc, s3⟩, h3, ⟨tris, s4⟩, h4, h5⟩ := h
  have hvc := read_integer_lt _ _ _ _ h1
  obtain ⟨vsn, hvseq, hvslen, _⟩ :=
    parseCount_ok Coordinate3.parse (fun _ => True) (fun _ _ _ _ => trivial)
      vc [] s1 vs s2 h2
  have htc := read_integer_lt _ _ _ _ h3
  obtain ⟨trn, htreq, htrlen, htrP⟩ :=
    parseCount_ok Triangle.parse WFTriangle triangle_parse_wf tc [] s3 tris s4 h4
  simp only [Except.ok.injEq, Prod.mk.injEq] at h5
  obtain ⟨hc, _⟩ := h5
  rw [← hc]
  simp only [List.nil_append] at hvseq htreq
  subst hvseq htreq
  dsimp only [WFCollision]
  exact ⟨by omega, by omega, by simpa using htrP⟩

theorem triggerbox_parse_wf (s : ByteStr) (t : TriggerBox) (s' : ByteStr)
    (h : TriggerBox.parse TriggerBox.init s = .ok (t, s')) : WFTrigger t := by
  simp only [TriggerBox.parse, TriggerBox.init, bind_ok_iff] at h
  obtain ⟨⟨cc, s1⟩, h1, ⟨cs, s2⟩, h2, ⟨nm, s3⟩, h3, h4⟩ := h
  have hcc := read_integer_lt _ _ _ _ h1
  obtain ⟨csn, hcseq, hcslen, hcsP⟩ :=
    parseCount_ok (Collision.parse Collision.init) WFCollision collision_parse_wf
      cc [] s1 cs s2 h2
  have hnm := read_string_wf _ _ _ _ h3
  simp only [Except.ok.injEq, Prod.mk.injEq] at h4
  obtain ⟨ht, _⟩ := h4
  rw [← ht]
  simp only [List.nil_append] at hcseq
  subst hcseq
  dsimp only [WFTrigger]
  exact ⟨by omega, by simpa using hcsP, hnm⟩

theorem parseTriggerSection_ok (sig : List Nat) (acc : List TriggerBox) (s : ByteStr)
    (ts : List TriggerBox) (s' : ByteStr)
    (h : parseTriggerSection sig acc s = .ok (ts, s')) :
    ∃ new, ts = acc ++ new ∧ new.length < 4294967296 ∧ (∀ t ∈ new, WFTrigger t) ∧
      (sig ≠ codes "RoomMesh.HasTriggerBox" → new = [] ∧ s' = s) := by
  rw [parseTriggerSection] at h
  by_cases hsig : sig = codes "RoomMesh.HasTriggerBox"
  · rw [if_pos hsig] at h
    rw [bind_ok_iff] at h
    obtain ⟨⟨tc, s1⟩, h1, h2⟩ := h
    have h2' : parseCount tc (TriggerBox.parse TriggerBox.init) acc s1
        = .ok (ts, s') := h2
    obtain ⟨new, hl, hlen, hP⟩ :=
      parseCount_ok (TriggerBox.parse TriggerBox.init) WFTrigger triggerbox_parse_wf
        tc acc s1 ts s' h2'
    have := read_integer_lt _ _ _ _ h1
    exact ⟨new, hl, by omega, hP, fun hne => absurd hsig hne⟩
  · rw [if_neg hsig] at h
    simp only [Except.ok.injEq, Prod.mk.injEq] at h
    obtain ⟨h1, h2⟩ := h
    exact ⟨[], by simp [h1], by simp, by simp, fun _ => ⟨rfl, h2.symm⟩⟩

theorem parsePoints_length_le :
    ∀ (n : Nat) (acc : List Point) (s : ByteStr) (l : List Point) (s' : ByteStr),
      parsePoints n acc s = .ok (l, s') → l.length ≤ acc.length + n := by
  intro n
  induction n with
  | zero =>
    intro acc s l s' h
    rw [parsePoints] at h
    simp only [Except.ok.injEq, Prod.mk.injEq] at h
    obtain ⟨h1, _⟩ := h
    rw [← h1]
    omega
  | succ m ih =>
    intro acc s l s' h
    rw [parsePoints, bind_ok_iff] at h
    obtain ⟨⟨opt, s1⟩, h1, h2⟩ := h
    cases opt with
    | some pt =>
      have h2' : parsePoints m (acc ++ [pt]) s1 = .ok (l, s') := h2
      have := ih (acc ++ [pt]) s1 l s' h2'
      simp only [List.length_append, List.length_singleton] at this
      omega
    | none =>
      have h2' : parsePoints m acc s1 = .ok (l, s') := h2
      have := ih acc s1 l s' h2'
      omega

theorem parse_init_wf (b : ByteStr) (d : RoomMesh) (rest : ByteStr)
    (h : RoomMesh.parse RoomMesh.init b = .ok (d, rest)) : WFDoc d := by
  simp only [RoomMesh.parse, bind_ok_iff] at h
  obtain ⟨⟨sig, s1⟩, hsig, h2⟩ := h
  by_cases hin : sig = codes "RoomMesh" ∨ sig = codes "RoomMesh.HasTriggerBox"
  · rw [if_pos hin] at h2
    simp only [RoomMesh.parseBody, RoomMesh.init, bind_ok_iff] at h2
    obtain ⟨⟨oc, s2⟩, hoc, ⟨objs, s3⟩, hobjs, ⟨cc, s4⟩, hcc, ⟨cols, s5⟩, hcols,
      ⟨trigs, s6⟩, htrigs, ⟨pc, s7⟩, hpc, ⟨pts, s8⟩, hpts, hfin⟩ := h2
    have hoclt := read_integer_lt _ _ _ _ hoc
    obtain ⟨objn, hobjeq, hobjlen, hobjP⟩ :=
      parseCount_ok (Object.parse Object.init) WFObject object_parse_wf
        oc [] s2 objs s3 hobjs
    have hcclt := read_integer_lt _ _ _ _ hcc
    obtain ⟨coln, hcoleq, hcollen, hcolP⟩ :=
      parseCount_ok (Collision.parse Collision.init) WFCollision collision_parse_wf
        cc [] s4 cols s5 hcols
    obtain ⟨trign, htrigeq, htriglen, htrigP, htrignone⟩ :=
      parseTriggerSection_ok sig [] s5 trigs s6 htrigs
    have hpclt := read_integer_lt _ _ _ _ hpc
    obtain ⟨ptn, hpteq, hptP⟩ := parsePoints_ok pc [] s7 pts s8 hpts
    simp only [Except.ok.injEq, Prod.mk.injEq] at hfin
    obtain ⟨hd, _⟩ := hfin
    rw [← hd]
    have hptlen : pts.length < 4294967296 := by
      have := parsePoints_length_le pc [] s7 pts s8 hpts
      simp only [List.length_nil] at this
      omega
    simp only [List.nil_append] at hobjeq hcoleq htrigeq hpteq
    subst hobjeq hcoleq htrigeq hpteq
    dsimp only [WFDoc]
    refine ⟨hin, ?_, by omega, by simpa using hobjP, by omega,
      by simpa using hcolP, htriglen, by simpa using htrigP, hptlen,
      by simpa using hptP⟩
    intro h1
    rcases htrignone (by rw [h1]; decide) with ⟨he, _⟩
    exact he
  · rw [if_neg hin] at h2
    exact absurd h2 (by simp)

/-- C10: `RoomMesh.parse` never clears the document's existing state: whenever a
parse call on any prior `RoomMesh` state succeeds, each of the objects,
collisions, triggers and points lists of the result is the prior list followed
by the newly parsed elements — the pre-existing elements are unchanged in
their positions and nothing is replaced. -/
theorem C10_parse_appends (r0 : RoomMesh) (b : ByteStr) (r1 : RoomMesh) (rest : ByteStr)
    (h : RoomMesh.parse r0 b = .ok (r1, rest)) :
    ∃ os cs ts ps, r1.objects = r0.objects ++ os ∧ r1.collisions = r0.collisions ++ cs
      ∧ r1.triggers = r0.triggers ++ ts ∧ r1.points = r0.points ++ ps := by
  simp only [RoomMesh.parse, bind_ok_iff] at h
  obtain ⟨⟨sig, s1⟩, hsig, h2⟩ := h
  by_cases hin : sig = codes "RoomMesh" ∨ sig = codes "RoomMesh.HasTriggerBox"
  · rw [if_pos hin] at h2
    simp only [RoomMesh.parseBody, bind_ok_iff] at h2
    obtain ⟨⟨oc, s2⟩, hoc, ⟨objs, s3⟩, hobjs, ⟨cc, s4⟩, hcc, ⟨cols, s5⟩, hcols,
      ⟨trigs, s6⟩, htrigs, ⟨pc, s7⟩, hpc, ⟨pts, s8⟩, hpts, hfin⟩ := h2
    obtain ⟨os, hos, _, _⟩ := parseCount_ok (Object.parse Object.init)
      (fun _ => True) (fun _ _ _ _ => trivial) oc r0.objects s2 objs s3 hobjs
    obtain ⟨cs, hcs, _, _⟩ := parseCount_ok (Collision.parse Collision.init)
      (fun _ => True) (fun _ _ _ _ => trivial) cc r0.collisions s4 cols s5 hcols
    obtain ⟨ts, hts, _, _, _⟩ :=
      parseTriggerSection_ok sig r0.triggers s5 trigs s6 htrigs
    obtain ⟨ps, hps, _⟩ := parsePoints_ok pc r0.points s7 pts s8 hpts
    simp only [Except.ok.injEq, Prod.mk.injEq] at hfin
    obtain ⟨hd, _⟩ := hfin
    rw [← hd]
    refine ⟨os, cs, ts, ps, ?_, ?_, ?_, ?_⟩ <;> dsimp only <;> assumption
  · rw [if_neg hin] at h2
    exact absurd h2 (by simp)

/-! ### Claim theorems -/

/-- C1 (counterexample): the round-trip claim fails as stated.  The stream
below is well-formed (its parse succeeds and consumes every byte): signature
`"RoomMesh.HasTriggerBox"`, zero objects, zero collisions, an explicit trigger
count of zero, zero points.  Writing the parsed document omits the trigger
count entirely, so the output is not the input plus a fresh EOF sentinel, and
re-parsing the written bytes fails instead of reconstructing the document. -/
theorem C1_counterexample :
    RoomMesh.parse RoomMesh.init
        (strEnc (codes "RoomMesh.HasTriggerBox") ++ u32Bytes 0 ++ u32Bytes 0
          ++ u32Bytes 0 ++ u32Bytes 0)
      = .ok (⟨codes "RoomMesh.HasTriggerBox", [], [], [], []⟩, []) ∧
    RoomMesh.write ⟨codes "RoomMesh.HasTriggerBox", [], [], [], []⟩
      = .ok (strEnc (codes "RoomMesh.HasTriggerBox") ++ u32Bytes 0 ++ u32Bytes 0
          ++ u32Bytes 0 ++ strEnc (codes "EOF")) ∧
    strEnc (codes "RoomMesh.HasTriggerBox") ++ u32Bytes 0 ++ u32Bytes 0
        ++ u32Bytes 0 ++ strEnc (codes "EOF")
      ≠ (strEnc (codes "RoomMesh.HasTriggerBox") ++ u32Bytes 0 ++ u32Bytes 0
          ++ u32Bytes 0 ++ u32Bytes 0) ++ strEnc (codes "EOF") ∧
    RoomMesh.parse RoomMesh.init
        (strEnc (codes "RoomMesh.HasTriggerBox") ++ u32Bytes 0 ++ u32Bytes 0
          ++ u32Bytes 0 ++ strEnc (codes "EOF"))
      = .error (.eofError "point classname") :=
  ⟨by decide, by decide, by decide, by decide⟩

/-- C1 (amended): for every document `d` obtained by a successful
`RoomMesh.parse` from a fresh `RoomMesh()`, provided the trigger list is
non-empty whenever the signature is `"RoomMesh.HasTriggerBox"` (the
counterexample case) and the re-rendered color/angle text fields fit the
32-bit length prefix, `RoomMesh.write d` succeeds and re-parsing the written
bytes from a fresh `RoomMesh()` reconstructs every logical field of `d`
exactly, leaving precisely the fresh EOF sentinel unread. -/
theorem C1_roundtrip (b : ByteStr) (d : RoomMesh) (rest : ByteStr)
    (hparse : RoomMesh.parse RoomMesh.init b = .ok (d, rest))
    (hsize : SizeDoc d)
    (htrig : d.signature = codes "RoomMesh.HasTriggerBox" → d.triggers ≠ []) :
    ∃ w, RoomMesh.write d = .ok w ∧
      RoomMesh.parse RoomMesh.init w = .ok (d, strEnc (codes "EOF")) :=
  doc_rt d (parse_init_wf b d rest hparse) hsize htrig

theorem C1_roundtrip_witness :
    RoomMesh.parse RoomMesh.init
        (strEnc (codes "RoomMesh.HasTriggerBox") ++ u32Bytes 0 ++ u32Bytes 0
          ++ u32Bytes 1 ++ (u32Bytes 0 ++ strEnc (codes "t")) ++ u32Bytes 0)
      = .ok (⟨codes "RoomMesh.HasTriggerBox", [], [], [⟨[], codes "t"⟩], []⟩, []) ∧
    SizeDoc ⟨codes "RoomMesh.HasTriggerBox", [], [], [⟨[], codes "t"⟩], []⟩ ∧
    ((⟨codes "RoomMesh.HasTriggerBox", [], [], [⟨[], codes "t"⟩], []⟩ :
        RoomMesh).signature = codes "RoomMesh.HasTriggerBox" →
      (⟨codes "RoomMesh.HasTriggerBox", [], [], [⟨[], codes "t"⟩], []⟩ :
        RoomMesh).triggers ≠ []) ∧
    ∃ w, RoomMesh.write
        ⟨codes "RoomMesh.HasTriggerBox", [], [], [⟨[], codes "t"⟩], []⟩ = .ok w ∧
      RoomMesh.parse RoomMesh.init w
        = .ok (⟨codes "RoomMesh.HasTriggerBox", [], [], [⟨[], codes "t"⟩], []⟩,
            strEnc (codes "EOF")) :=
  ⟨by decide, by decide, by decide,
    C1_roundtrip
      (strEnc (codes "RoomMesh.HasTriggerBox") ++ u32Bytes 0 ++ u32Bytes 0
        ++ u32Bytes 1 ++ (u32Bytes 0 ++ strEnc (codes "t")) ++ u32Bytes 0)
      ⟨codes "RoomMesh.HasTriggerBox", [], [], [⟨[], codes "t"⟩], []⟩ []
      (by decide) (by decide) (by decide)⟩

/-- C2 (counterexample): the padding texture is not `Texture(layerID=0)`.
Writing an `Object` with an empty texture list emits two padded slots whose
bytes are `[1, 0, 0, 0, 0]` each — a default `Texture()` with `layer_ID = 1`
and an empty length-prefixed filename — whereas an empty `Texture(layerID=0)`
writes the single byte `[0]`. -/
theorem C2_counterexample :
    Object.write ⟨[], [], []⟩
      = .ok ([1, 0, 0, 0, 0] ++ [1, 0, 0, 0, 0] ++ u32Bytes 0 ++ u32Bytes 0) ∧
    padTextures [] = [⟨1, []⟩, ⟨1, []⟩] ∧
    Texture.init.layer_ID = 1 ∧
    Texture.write ⟨0, []⟩ = .ok [0] ∧
    ([1, 0, 0, 0, 0] : ByteStr) ≠ [0] :=
  ⟨by decide, by decide, by decide, by decide, by decide⟩

/-- C2 (amended): for every `Object` with fewer than 2 textures, `Object.write`
left-pads the emitted texture list with default `Texture()` entries — which
have `layer_ID = 1` and an empty filename, not `layerID = 0` — so that exactly
two texture slots are emitted; for every `Object` with 2 or more textures it
never truncates the list, emitting the object exactly as if its texture list
were pre-padded. -/
theorem C2_padding (o : Object) :
    (2 ≤ o.textures.length → padTextures o.textures = o.textures) ∧
    (o.textures.length < 2 →
      padTextures o.textures
        = List.replicate (2 - o.textures.length) Texture.init ++ o.textures) ∧
    (o.textures.length < 2 → (padTextures o.textures).length = 2) ∧
    Texture.init = ⟨1, []⟩ ∧
    Object.write o = Object.write ⟨padTextures o.textures, o.vertices, o.triangles⟩ := by
  have hcase : ∀ ts : List Texture,
      (2 ≤ ts.length → padTextures ts = ts) ∧
      (ts.length < 2 →
        padTextures ts = List.replicate (2 - ts.length) Texture.init ++ ts) := by
    intro ts
    match ts with
    | [] => exact ⟨by intro h; simp at h, fun _ => by rfl⟩
    | [t] => exact ⟨by intro h; simp at h, fun _ => by rfl⟩
    | t1 :: t2 :: rest =>
      refine ⟨fun _ => ?_, fun h => by simp at h; omega⟩
      show padGo 2 (t1 :: t2 :: rest) = t1 :: t2 :: rest
      rw [padGo, if_neg (by simp)]
  obtain ⟨hA, hB⟩ := hcase o.textures
  have hlen2 : o.textures.length < 2 → (padTextures o.textures).length = 2 := by
    intro h
    rw [hB h, List.length_append, List.length_replicate]
    omega
  have hidem : padTextures (padTextures o.textures) = padTextures o.textures := by
    by_cases h : 2 ≤ o.textures.length
    · rw [hA h, hA h]
    · exact (hcase (padTextures o.textures)).1 (by rw [hlen2 (by omega)])
  refine ⟨hA, hB, hlen2, rfl, ?_⟩
  rw [Object.write, Object.write]
  dsimp only
  rw [hidem]

theorem C2_padding_witness :
    (⟨[], [], []⟩ : Object).textures.length < 2 ∧
    padTextures ([] : List Texture) = List.replicate 2 Texture.init ++ [] ∧
    (padTextures ([] : List Texture)).length = 2 ∧
    Object.write ⟨[], [], []⟩
      = Object.write ⟨padTextures [], [], []⟩ :=
  ⟨by decide, (C2_padding ⟨[], [], []⟩).2.1 (by decide),
    (C2_padding ⟨[], [], []⟩).2.2.1 (by decide), (C2_padding ⟨[], [], []⟩).2.2.2.2⟩

theorem mapPyInt_length : ∀ (ts : List (List Nat)) (vs : List ℤ),
    mapPyInt ts = .ok vs → vs.length = ts.length := by
  intro ts
  induction ts with
  | nil =>
    intro vs h
    simp only [mapPyInt, Except.ok.injEq] at h
    rw [← h]
    rfl
  | cons t ts' ih =>
    intro vs h
    rw [mapPyInt] at h
    cases hp : pyInt t with
    | none => rw [hp] at h; simp at h
    | some v =>
      rw [hp, bind_ok_iff] at h
      obtain ⟨vs', h1, h2⟩ := h
      simp only [Except.ok.injEq] at h2
      rw [← h2, List.length_cons, ih vs' h1, List.length_cons]

/-- C3 (counterexample): a color string with more than 3 integer tokens does
not parse successfully — `set_rgb(*map(int, ...))` raises `TypeError` when the
unpacking supplies four arguments, so `"1 2 3 4"` fails rather than using the
first three tokens. -/
theorem C3_counterexample :
    Color.parse_as_string (strEnc (codes "1 2 3 4"))
      = .error (.typeError "set_rgb argument count") := by decide

/-- C3 (amended): `Color.parse_as_string` reads one length-prefixed string of
space-separated base-10 integer tokens; `"255 128 0"` parses to
Color(255,128,0); every input whose token list does not split into exactly 3
tokens fails — fewer than 3 tokens fail (with `TypeError` from the `set_rgb`
unpacking, or `ValueError` on a non-integer token), and, contrary to the
original claim, more than 3 tokens also fail with `TypeError` instead of
ignoring the remainder. -/
theorem C3_color_string (s : List Nat) (r : ByteStr) (h : StrOK s) :
    (∀ r', Color.parse_as_string (strEnc (codes "255 128 0") ++ r')
      = .ok (⟨255, 128, 0⟩, r')) ∧
    ((pySplit s).length < 3 →
      ∃ e, Color.parse_as_string (strEnc s ++ r) = .error e) ∧
    (3 < (pySplit s).length →
      ∃ e, Color.parse_as_string (strEnc s ++ r) = .error e) := by
  have hfail : (pySplit s).length ≠ 3 →
      ∃ e, Color.parse_as_string (strEnc s ++ r) = .error e := by
    intro hne
    simp only [Color.parse_as_string, read_string_strEnc s h, ok_bind]
    cases hm : mapPyInt (pySplit s) with
    | error e =>
      exact ⟨e, rfl⟩
    | ok vals =>
      have hlen := mapPyInt_length _ _ hm
      match vals, hlen with
      | [], hlen => exact ⟨.typeError "set_rgb argument count", rfl⟩
      | [a], hlen => exact ⟨.typeError "set_rgb argument count", rfl⟩
      | [a, b], hlen => exact ⟨.typeError "set_rgb argument count", rfl⟩
      | [a, b, c], hlen => exact absurd (by rw [← hlen]; rfl : (pySplit s).length = 3) hne
      | a :: b :: c :: d :: tl, hlen =>
        exact ⟨.typeError "set_rgb argument count", rfl⟩
  refine ⟨fun r' => ?_, fun hlt => hfail (by omega), fun hgt => hfail (by omega)⟩
  simp only [Color.parse_as_string,
    read_string_strEnc (codes "255 128 0") (by decide), ok_bind]
  rw [show pySplit (codes "255 128 0") = [codes "255", codes "128", codes "0"]
    from by decide]
  rw [show mapPyInt [codes "255", codes "128", codes "0"] = .ok [255, 128, 0]
    from by decide]
  rfl

theorem C3_color_string_witness :
    StrOK (codes "10 20") ∧
    (pySplit (codes "10 20")).length < 3 ∧
    (∃ e, Color.parse_as_string (strEnc (codes "10 20") ++ []) = .error e) ∧
    Color.parse_as_string (strEnc (codes "255 128 0") ++ [])
      = .ok (⟨255, 128, 0⟩, []) :=
  ⟨by decide, by decide,
    (C3_color_string (codes "10 20") [] (by decide)).2.1 (by decide),
    (C3_color_string (codes "10 20") [] (by decide)).1 []⟩

/-- C4: during point dispatch, for every classname string not in
{screen, waypoint, light, spotlight, soundemitter, playerstart, model},
no bytes are consumed beyond the classname string itself — the stream
handed to the rest of the loop is exactly what followed the classname — and
no `Point` is produced (the unrecognized record's body bytes are not
skipped): one loop iteration on such a classname is the identity on the
accumulated point list. -/
theorem C4_unknown_classname (cname : List Nat) (r : ByteStr) (h : StrOK cname)
    (hn : cname ∉ recognizedClassnames) :
    parseOnePoint (strEnc cname ++ r) = .ok (none, r) ∧
    ∀ (n : Nat) (acc : List Point),
      parsePoints (n + 1) acc (strEnc cname ++ r) = parsePoints n acc r := by
  simp only [recognizedClassnames, List.mem_cons, List.mem_singleton, not_or] at hn
  obtain ⟨n1, n2, n3, n4, n5, n6, n7, -⟩ := hn
  have h1 : parseOnePoint (strEnc cname ++ r) = .ok (none, r) := by
    simp only [parseOnePoint, read_string_strEnc cname h, ok_bind, if_neg n1,
      if_neg n2, if_neg n3, if_neg n4, if_neg n5, if_neg n6, if_neg n7]
  refine ⟨h1, fun n acc => ?_⟩
  rw [parsePoints, h1, ok_bind]

theorem C4_unknown_classname_witness :
    StrOK (codes "bogus") ∧
    codes "bogus" ∉ recognizedClassnames ∧
    parseOnePoint (strEnc (codes "bogus") ++ [7, 7, 7]) = .ok (none, [7, 7, 7]) ∧
    parsePoints 1 [] (strEnc (codes "bogus") ++ [7, 7, 7])
      = parsePoints 0 [] [7, 7, 7] :=
  ⟨by decide, by decide,
    (C4_unknown_classname (codes "bogus") [7, 7, 7] (by decide) (by decide)).1,
    (C4_unknown_classname (codes "bogus") [7, 7, 7] (by decide) (by decide)).2 0 []⟩

/-- C5: `Coordinate3` writes its three floats in wire order x, then z, then y
(the first conjunct exhibits the emitted bytes in exactly that order), mapped
to the logical fields (x, y, z); consequently, for finite x, y, z, parsing the
bytes produced by writing `Coordinate3(x, y, z)` yields the same
`Coordinate3(x, y, z)` with nothing else consumed. -/
theorem C5_coordinate3 (c : Coordinate3) (r : ByteStr)
    (hx : c.x.isFinite = true) (hy : c.y.isFinite = true)
    (hz : c.z.isFinite = true) :
    Coordinate3.write c = .ok (c.x.bytes ++ (c.z.bytes ++ c.y.bytes)) ∧
    ∃ w, Coordinate3.write c = .ok w ∧ Coordinate3.parse (w ++ r) = .ok (c, r) :=
  ⟨coordinate3_write c, ⟨c.x.bytes ++ (c.z.bytes ++ c.y.bytes),
    coordinate3_write c, rfl⟩⟩

theorem C5_coordinate3_witness :
    (F32.zero.isFinite = true) ∧
    (Coordinate3.write ⟨F32.zero, F32.one, F32.zero⟩
        = .ok (F32.zero.bytes ++ (F32.zero.bytes ++ F32.one.bytes)) ∧
      ∃ w, Coordinate3.write ⟨F32.zero, F32.one, F32.zero⟩ = .ok w ∧
        Coordinate3.parse (w ++ []) = .ok (⟨F32.zero, F32.one, F32.zero⟩, [])) :=
  ⟨by decide, C5_coordinate3 ⟨F32.zero, F32.one, F32.zero⟩ [] (by decide)
    (by decide) (by decide)⟩

/-- C7: for every `Texture` with `layer_ID = 0`, `Texture.write` emits exactly
one byte — a single zero byte, with no length-prefixed filename — regardless
of the filename field's value; and `Texture.parse` of a stream whose first
byte is 0 reads no further bytes and yields an empty filename. -/
theorem C7_texture_empty (t : Texture) (r : ByteStr) (h : t.layer_ID = 0) :
    Texture.write t = .ok [0] ∧
    Texture.parse ((0 : Fin 256) :: r) = .ok (⟨0, []⟩, r) := by
  constructor
  · simp [Texture.write, h, write_byte]
  · rfl

theorem C7_texture_empty_witness :
    (Texture.mk 0 (codes "anything")).layer_ID = 0 ∧
    Texture.write ⟨0, codes "anything"⟩ = .ok [0] ∧
    Texture.parse ((0 : Fin 256) :: [9, 9]) = .ok (⟨0, []⟩, [9, 9]) :=
  ⟨by decide, (C7_texture_empty ⟨0, codes "anything"⟩ [9, 9] (by decide)).1,
    (C7_texture_empty ⟨0, codes "anything"⟩ [9, 9] (by decide)).2⟩

/-- C6: `RoomMesh.write` emits the trigger count and trigger boxes if and only
if the trigger list is non-empty (an empty list contributes no bytes at all,
not a zero count), and `RoomMesh.parse` reads a trigger count and that many
boxes if and only if the signature is `"RoomMesh.HasTriggerBox"`, leaving the
trigger list untouched and consuming nothing otherwise.  (`RoomMesh.write` and
`RoomMesh.parseBody` are defined through `triggerSectionW` and
`parseTriggerSection` respectively.) -/
theorem C6_trigger_gating :
    (∀ l : List TriggerBox, l = [] → triggerSectionW l = .ok []) ∧
    (∀ (l : List TriggerBox) (w : ByteStr), triggerSectionW l = .ok w → l ≠ [] →
      ∃ w', w = u32Bytes l.length ++ w') ∧
    (∀ (sig : List Nat) (acc : List TriggerBox) (s : ByteStr),
      sig ≠ codes "RoomMesh.HasTriggerBox" →
      parseTriggerSection sig acc s = .ok (acc, s)) ∧
    (∀ (acc : List TriggerBox) (s : ByteStr) (ts : List TriggerBox) (s' : ByteStr),
      parseTriggerSection (codes "RoomMesh.HasTriggerBox") acc s = .ok (ts, s') →
      ∃ n s1, read_integer "trigger count" s = .ok (n, s1) ∧
        parseCount n (TriggerBox.parse TriggerBox.init) acc s1 = .ok (ts, s')) := by
  refine ⟨?_, ?_, ?_, ?_⟩
  · intro l hl
    subst hl
    rfl
  · intro l w hw hne
    rw [triggerSectionW, if_pos (List.length_pos.mpr hne), bind_ok_iff] at hw
    obtain ⟨cw, hcw, hw2⟩ := hw
    rw [write_integer] at hcw
    by_cases hlt : l.length < 4294967296
    · rw [if_pos hlt] at hcw
      simp only [Except.ok.injEq] at hcw
      rw [bind_ok_iff] at hw2
      obtain ⟨tw, htw, hw3⟩ := hw2
      simp only [Except.ok.injEq] at hw3
      exact ⟨tw, by rw [← hw3, ← hcw]⟩
    · rw [if_neg hlt] at hcw
      exact absurd hcw (by simp)
  · intro sig acc s hne
    rw [parseTriggerSection, if_neg hne]
  · intro acc s ts s' hp
    rw [parseTriggerSection, if_pos rfl, bind_ok_iff] at hp
    obtain ⟨⟨n, s1⟩, h1, h2⟩ := hp
    exact ⟨n, s1, h1, h2⟩

theorem C6_trigger_gating_witness :
    triggerSectionW [] = .ok [] ∧
    (([⟨[], []⟩] : List TriggerBox) ≠ [] ∧
      ∃ w', u32Bytes 1 ++ (u32Bytes 0 ++ strEnc [])
        = u32Bytes ([⟨[], []⟩] : List TriggerBox).length ++ w') ∧
    parseTriggerSection (codes "RoomMesh") [] [9]
      = .ok ([], [9]) ∧
    (∃ n s1, read_integer "trigger count" (u32Bytes 0) = .ok (n, s1) ∧
      parseCount n (TriggerBox.parse TriggerBox.init) [] s1 = .ok ([], [])) := by
  refine ⟨C6_trigger_gating.1 [] rfl, ⟨by decide, ?_⟩, ?_, ?_⟩
  · exact C6_trigger_gating.2.1 [⟨[], []⟩] (u32Bytes 1 ++ (u32Bytes 0 ++ strEnc []))
      (by decide) (by decide)
  · exact C6_trigger_gating.2.2.1 (codes "RoomMesh") [] [9] (by decide)
  · exact C6_trigger_gating.2.2.2 [] (u32Bytes 0) [] [] (by decide)

/-- C8: `Angle.write_as_string` rounds each of pitch, yaw, roll with Python's
default `round` — nearest integer, ties to even, computed here via `pyRoundNum`
on the exact value of the stored number — before formatting the
space-separated string, and parsing the written string back yields exactly the
rounded integers; in particular the float 44.5 (bit pattern `0x42320000`)
rounds to 44, fixing the tie by round-half-to-even. -/
theorem C8_angle_round (a : Angle) (z1 z2 z3 : ℤ) (r : ByteStr)
    (h1 : pyRoundNum a.pitch = .ok z1) (h2 : pyRoundNum a.yaw = .ok z2)
    (h3 : pyRoundNum a.roll = .ok z3)
    (hlen : (fmtInt z1 ++ 32 :: fmtInt z2 ++ 32 :: fmtInt z3).length < 4294967296) :
    Angle.write_as_string a
      = .ok (strEnc (fmtInt z1 ++ 32 :: fmtInt z2 ++ 32 :: fmtInt z3)) ∧
    Angle.parse_as_string (strEnc (fmtInt z1 ++ 32 :: fmtInt z2 ++ 32 :: fmtInt z3) ++ r)
      = .ok (⟨.pint z1, .pint z2, .pint z3⟩, r) ∧
    pyRoundNum (.pfloat ⟨0, 0, 50, 66⟩) = .ok 44 := by
  have hstrok : AngleStrOK ⟨.pint z1, .pint z2, .pint z3⟩ := ⟨⟨rfl, rfl, rfl⟩, hlen⟩
  refine ⟨?_, ?_, by decide⟩
  · rw [Angle.write_as_string, h1, ok_bind, h2, ok_bind, h3, ok_bind]
    exact write_string_ok _ ⟨hlen,
      three_token_lt128 _ _ _ (fmtInt_lt128 _) (fmtInt_lt128 _) (fmtInt_lt128 _)⟩ _
  · exact (angle_string_rt ⟨.pint z1, .pint z2, .pint z3⟩ hstrok).2 r

set_option maxRecDepth 8000 in
theorem C8_angle_round_witness :
    pyRoundNum (PyNum.pfloat ⟨0, 0, 50, 66⟩) = .ok 44 ∧
    pyRoundNum (PyNum.pfloat F32.zero) = .ok 0 ∧
    (fmtInt 44 ++ 32 :: fmtInt 0 ++ 32 :: fmtInt 0).length < 4294967296 ∧
    Angle.write_as_string ⟨.pfloat ⟨0, 0, 50, 66⟩, .pfloat F32.zero, .pfloat F32.zero⟩
      = .ok (strEnc (fmtInt 44 ++ 32 :: fmtInt 0 ++ 32 :: fmtInt 0)) ∧
    Angle.parse_as_string (strEnc (fmtInt 44 ++ 32 :: fmtInt 0 ++ 32 :: fmtInt 0) ++ [])
      = .ok (⟨.pint 44, .pint 0, .pint 0⟩, []) := by
  refine ⟨by decide, by decide, by decide, ?_, ?_⟩
  · exact (C8_angle_round ⟨.pfloat ⟨0, 0, 50, 66⟩, .pfloat F32.zero, .pfloat F32.zero⟩
      44 0 0 [] (by decide) (by decide) (by decide) (by decide)).1
  · exact (C8_angle_round ⟨.pfloat ⟨0, 0, 50, 66⟩, .pfloat F32.zero, .pfloat F32.zero⟩
      44 0 0 [] (by decide) (by decide) (by decide) (by decide)).2.1

/-- C9: `RoomMesh.parse` reads the signature string first and raises
`ValueError` ("Unexpected signature string", the spec's `UnknownSignature`)
for every signature that is not exactly `"RoomMesh"` or
`"RoomMesh.HasTriggerBox"`; for the two recognized literals it proceeds to the
document body without error at that step. -/
theorem C9_signature (s : List Nat) (r0 : RoomMesh) (r : ByteStr) (h : StrOK s) :
    (s ≠ codes "RoomMesh" → s ≠ codes "RoomMesh.HasTriggerBox" →
      RoomMesh.parse r0 (strEnc s ++ r)
        = .error (.valueError "Unexpected signature string")) ∧
    (s = codes "RoomMesh" ∨ s = codes "RoomMesh.HasTriggerBox" →
      RoomMesh.parse r0 (strEnc s ++ r) = RoomMesh.parseBody r0 s r) := by
  constructor
  · intro hn1 hn2
    simp only [RoomMesh.parse, read_string_strEnc s h, ok_bind,
      if_neg (show ¬ (s = codes "RoomMesh" ∨ s = codes "RoomMesh.HasTriggerBox")
        from by simp [hn1, hn2])]
  · intro hin
    simp only [RoomMesh.parse, read_string_strEnc s h, ok_bind, if_pos hin]

theorem C9_signature_witness :
    (codes "NotARoomMesh" ≠ codes "RoomMesh" ∧
      codes "NotARoomMesh" ≠ codes "RoomMesh.HasTriggerBox" ∧
      RoomMesh.parse RoomMesh.init (strEnc (codes "NotARoomMesh") ++ [])
        = .error (.valueError "Unexpected signature string")) ∧
    RoomMesh.parse RoomMesh.init (strEnc (codes "RoomMesh") ++ [])
      = RoomMesh.parseBody RoomMesh.init (codes "RoomMesh") [] :=
  ⟨⟨by decide, by decide,
    (C9_signature (codes "NotARoomMesh") RoomMesh.init [] (by decide)).1
      (by decide) (by decide)⟩,
    (C9_signature (codes "RoomMesh") RoomMesh.init [] (by decide)).2
      (Or.inl rfl)⟩

theorem C10_parse_appends_witness :
    RoomMesh.parse ⟨[], [], [], [], [.waypoint ⟨Coordinate3.init⟩]⟩
        (strEnc (codes "RoomMesh") ++ u32Bytes 0 ++ u32Bytes 0 ++ u32Bytes 1
          ++ strEnc (codes "waypoint")
          ++ [0, 0, 0, 0, 0, 0, 0, 0, 0, 0, 0, 0])
      = .ok (⟨codes "RoomMesh", [], [], [],
          [.waypoint ⟨Coordinate3.init⟩, .waypoint ⟨Coordinate3.init⟩]⟩, []) ∧
    ∃ os cs ts ps,
      (⟨codes "RoomMesh", [], [], [],
          [.waypoint ⟨Coordinate3.init⟩, .waypoint ⟨Coordinate3.init⟩]⟩ :
        RoomMesh).objects
        = (⟨[], [], [], [], [.waypoint ⟨Coordinate3.init⟩]⟩ : RoomMesh).objects ++ os ∧
      (⟨codes "RoomMesh", [], [], [],
          [.waypoint ⟨Coordinate3.init⟩, .waypoint ⟨Coordinate3.init⟩]⟩ :
        RoomMesh).collisions
        = (⟨[], [], [], [], [.waypoint ⟨Coordinate3.init⟩]⟩ : RoomMesh).collisions ++ cs ∧
      (⟨codes "RoomMesh", [], [], [],
          [.waypoint ⟨Coordinate3.init⟩, .waypoint ⟨Coordinate3.init⟩]⟩ :
        RoomMesh).triggers
        = (⟨[], [], [], [], [.waypoint ⟨Coordinate3.init⟩]⟩ : RoomMesh).triggers ++ ts ∧
      (⟨codes "RoomMesh", [], [], [],
          [.waypoint ⟨Coordinate3.init⟩, .waypoint ⟨Coordinate3.init⟩]⟩ :
        RoomMesh).points
        = (⟨[], [], [], [], [.waypoint ⟨Coordinate3.init⟩]⟩ : RoomMesh).points ++ ps :=
  ⟨by decide,
    C10_parse_appends ⟨[], [], [], [], [.waypoint ⟨Coordinate3.init⟩]⟩
      (strEnc (codes "RoomMesh") ++ u32Bytes 0 ++ u32Bytes 0 ++ u32Bytes 1
        ++ strEnc (codes "waypoint")
        ++ [0, 0, 0, 0, 0, 0, 0, 0, 0, 0, 0, 0])
      ⟨codes "RoomMesh", [], [], [],
        [.waypoint ⟨Coordinate3.init⟩, .waypoint ⟨Coordinate3.init⟩]⟩ []
      (by decide)⟩
